import Mathlib

/-!
Shallow embedding of the Luxurium Booking alert core:
the alert derivation engine (`src/utils/alertEngine.ts`), the alert
resolution store and view-model merge (`src/state/AlertStore.tsx`), and the
persisted-resolution load normalization (`normalizeResolutions`).

Modelling conventions:

* JS `Date` values are modelled as `Int` milliseconds since the epoch, with
  the local timezone taken to be UTC (the engine only does day-granular
  arithmetic: `startOfDay`, `addDays`, ordering comparisons, and the
  `YYYY-MM-DD` date key).
* `parseEventDateLabel` parses an external, human-readable date label
  ("27 Nov 2025") with the JS `Date` constructor.  That parser is outside
  the core; its result is modelled by carrying the parsed midnight
  timestamp on the booking record (`eventDate`), alongside the label
  string used for display.
* JS `Map` and plain string-keyed objects are modelled as association
  lists (`alGet` / `alSet` / `alDelete` below): insertion order is
  preserved, re-setting an existing key keeps its original position, which
  is exactly the JS iteration-order contract.
* The engine's map keys `` dk|slot|hallCode `` and `` dk|slot `` are
  modelled as structured tuples.  The date key contains only digits and
  dashes (never `|`), so joining with `|` and later `key.split("|")` is a
  bijection between those strings and the tuples; grouping by the tuple is
  therefore the same grouping.
* The source builds its three grouping maps in a single traversal of the
  bookings (with a nested loop over each booking's hall allocations).
  Each map is read and written only by its own updates, so the traversal
  is equivalent to three independent folds; the nested hall loop is
  linearized by `allocsOf` in the same order.
* `number` fields that are guest counts, capacities, amounts and booking
  ids are non-negative integers (`Nat`), per the data model.
* `toLocaleString("en-PK")` digit grouping is abstracted to plain decimal
  rendering (locale formatting is an explicit non-goal of the spec).
* `new Date().toISOString()` timestamps are modelled by passing the
  current clock reading as an explicit `now : String` argument.
-/

namespace Luxurium

/-! ### Decimal rendering of numbers (JS template-literal interpolation) -/

/-- Fuel-driven accumulator loop producing most-significant-first decimal
digits; structural in the fuel so that it computes by kernel reduction. -/
def natDigitsCore : Nat → Nat → List Char → List Char
  | 0, _, acc => acc
  | fuel + 1, n, acc =>
    if n < 10 then Nat.digitChar n :: acc
    else natDigitsCore fuel (n / 10) (Nat.digitChar (n % 10) :: acc)

/-- Most-significant-first decimal digits of a natural number, exactly the
characters JS produces when interpolating a non-negative integer. -/
def natDigits (n : Nat) : List Char :=
  natDigitsCore (n + 1) n []

def natToString (n : Nat) : String :=
  String.mk (natDigits n)

def intToString (i : Int) : String :=
  if i < 0 then "-" ++ natToString i.natAbs else natToString i.natAbs

/-- `String.prototype.trim`: strip leading and trailing whitespace.
Defined structurally over the character list so it computes by kernel
reduction. -/
def jsTrim (s : String) : String :=
  String.mk
    (((s.data.dropWhile Char.isWhitespace).reverse.dropWhile
        Char.isWhitespace).reverse)

/-! ### Date helpers (from `src/utils/dateUtils.ts`) -/

def msPerDay : Int := 86400000

/-- Start-of-day helper used in alerts: truncate a timestamp to midnight. -/
def startOfDay (d : Int) : Int :=
  msPerDay * (d.fdiv msPerDay)

/-- Date addition in whole days (`base.getTime() + days * 24*60*60*1000`). -/
def addDays (base : Int) (days : Int) : Int :=
  base + days * msPerDay

/-- Civil (proleptic Gregorian) date of a day count since 1970-01-01,
returned as (year, month, day).  Standard days-to-civil algorithm, matching
the JS `getFullYear` / `getMonth` / `getDate` components. -/
def civilFromDays (z0 : Int) : Int × Int × Int :=
  let z := z0 + 719468
  let era := z.fdiv 146097
  let doe := z - era * 146097
  let yoe := (doe - doe.fdiv 1460 + doe.fdiv 36524 - doe.fdiv 146096).fdiv 365
  let y := yoe + era * 400
  let doy := doe - (365 * yoe + yoe.fdiv 4 - yoe.fdiv 100)
  let mp := (5 * doy + 2).fdiv 153
  let d := doy - (153 * mp + 2).fdiv 5 + 1
  let m := mp + (if mp < 10 then 3 else -9)
  (y + (if m ≤ 2 then 1 else 0), m, d)

def pad2 (n : Int) : String :=
  if n < 10 then "0" ++ intToString n else intToString n

/-- Normalized `YYYY-MM-DD` key for grouping/filtering by calendar day
(`dateKey` / `dateKeyFromDate` in `dateUtils.ts`). -/
def dateKeyFromDate (dms : Int) : String :=
  let c := civilFromDays (dms.fdiv msPerDay)
  intToString c.1 ++ "-" ++ pad2 c.2.1 ++ "-" ++ pad2 c.2.2

/-! ### Association lists: the JS `Map` / string-keyed object model -/

def alGet {κ α : Type} [DecidableEq κ] : List (κ × α) → κ → Option α
  | [], _ => none
  | (k', v) :: rest, k => if k' = k then some v else alGet rest k

def alSet {κ α : Type} [DecidableEq κ] : List (κ × α) → κ → α → List (κ × α)
  | [], k, v => [(k, v)]
  | (k', v') :: rest, k, v =>
    if k' = k then (k, v) :: rest else (k', v') :: alSet rest k v

def alDelete {κ α : Type} [DecidableEq κ] : List (κ × α) → κ → List (κ × α)
  | [], _ => []
  | (k', v') :: rest, k => if k' = k then rest else (k', v') :: alDelete rest k

def alKeys {κ α : Type} (m : List (κ × α)) : List κ :=
  m.map (·.1)

/-! ### Data model (from `src/mock/bookingsMockApi.ts`) -/

inductive Slot
  | LUNCH
  | DINNER
deriving DecidableEq, Repr

inductive BookingStatus
  | INQUIRY
  | TENTATIVE
  | CONFIRMED
  | COMPLETED
  | CANCELLED
deriving DecidableEq, Repr

inductive HallCode
  | A
  | B
deriving DecidableEq, Repr

structure HallAllocation where
  hallCode : HallCode
  hallName : String
  capacity : Nat
  guestsHere : Nat
  guestsInOtherHallsText : Option String := none
deriving DecidableEq, Repr

structure AdvanceSummary where
  amount : Nat
  method : String
  destinationAccount : String
  reference : Option String := none
  receivedAtLabel : Option String := none
deriving DecidableEq, Repr

structure MockBooking where
  id : Nat
  bookingRef : String
  eventTitle : String
  nameplateText : Option String := none
  eventDateLabel : String
  /-- The timestamp `parseEventDateLabel eventDateLabel` evaluates to:
  midnight (local) of the labelled calendar day, in ms since the epoch.
  The external string parser is modelled by carrying its result here. -/
  eventDate : Int
  slot : Slot
  totalGuests : Nat
  hallAGuests : Option Nat := none
  hallBGuests : Option Nat := none
  status : BookingStatus
  customerName : String
  customerPhone : String
  customerWhatsapp : Option String := none
  familyOrCompanyName : Option String := none
  customerAddress : Option String := none
  customerReference : Option String := none
  hasPerformance : Bool
  performanceDescription : Option String := none
  halls : List HallAllocation
  internalNote : Option String := none
  advance : Option AdvanceSummary := none
deriving DecidableEq, Repr

/-! ### Alert engine types (from `src/utils/alertEngine.ts`) -/

inductive AlertType
  | CAPACITY_OVERRIDE
  | PERFORMANCE_HALL_CONFLICT
  | SOFT_BOOKING_FOLLOWUP
  | PAST_NOT_CLOSED
  | MISSING_CONTACT
  | GUEST_SPLIT_MISMATCH
  | COMPLEX_MULTI_HALL_DAY
  | HIGH_GUEST_COUNT
  | HIGH_ADVANCE_VALUE
deriving DecidableEq, Repr

inductive AlertSeverity
  | info
  | warning
  | critical
deriving DecidableEq, Repr

structure AlertDefinition where
  id : String
  type : AlertType
  severity : AlertSeverity
  title : String
  message : String
  sub : Option String := none
  bookingId : Option Nat := none
  dateKey : Option String := none
  slot : Option Slot := none
deriving DecidableEq, Repr

structure HallSlotUsage where
  used : Nat
  capacity : Nat
  eventCount : Nat
  sampleBookingId : Option Nat := none
  sampleDateLabel : Option String := none
  sampleGuestsHere : Nat
deriving DecidableEq, Repr

/-- The string form of a slot, as it appears in keys and alert ids. -/
def slotName : Slot → String
  | .LUNCH => "LUNCH"
  | .DINNER => "DINNER"

/-- Human-readable slot label (`slotStr === "LUNCH" ? "Lunch" : "Dinner"`). -/
def humanSlot : Slot → String
  | .LUNCH => "Lunch"
  | .DINNER => "Dinner"

/-- The string form of a hall code. -/
def hallCodeStr : HallCode → String
  | .A => "A"
  | .B => "B"

/-- The string form of a booking status (template interpolation of the
status union value). -/
def statusName : BookingStatus → String
  | .INQUIRY => "INQUIRY"
  | .TENTATIVE => "TENTATIVE"
  | .CONFIRMED => "CONFIRMED"
  | .COMPLETED => "COMPLETED"
  | .CANCELLED => "CANCELLED"

/-- Structured form of the engine's `` dk|slot|hallCode `` map key. -/
abbrev SlotHallKey := String × Slot × HallCode

/-- Structured form of the engine's `` dk|slot `` map key. -/
abbrev DaySlotKey := String × Slot

/-! ### Indexing pass (first loop of `buildAlerts`) -/

/-- All (booking, hall allocation) pairs in traversal order: the outer
booking loop with the nested `for (const hall of b.halls)` loop. -/
def allocsOf (bookings : List MockBooking) : List (MockBooking × HallAllocation) :=
  bookings.flatMap fun b => b.halls.map fun h => (b, h)

def allocKey (p : MockBooking × HallAllocation) : SlotHallKey :=
  (dateKeyFromDate p.1.eventDate, p.1.slot, p.2.hallCode)

def daySlotKeyOf (b : MockBooking) : DaySlotKey :=
  (dateKeyFromDate b.eventDate, b.slot)

/-- One usage-aggregation step of the indexing loop (`hallSlotUsage.set`). -/
def stepUsage (prev : Option HallSlotUsage) (b : MockBooking)
    (hall : HallAllocation) : HallSlotUsage :=
  let nextUsed := (prev.map (·.used)).getD 0 + hall.guestsHere
  let nextCapacity := max ((prev.map (·.capacity)).getD hall.capacity) hall.capacity
  let nextEventCount := (prev.map (·.eventCount)).getD 0 + 1
  let prevSampleGuests := (prev.map (·.sampleGuestsHere)).getD 0
  if prevSampleGuests ≤ hall.guestsHere then
    { used := nextUsed, capacity := nextCapacity, eventCount := nextEventCount,
      sampleBookingId := some b.id, sampleDateLabel := some b.eventDateLabel,
      sampleGuestsHere := hall.guestsHere }
  else
    { used := nextUsed, capacity := nextCapacity, eventCount := nextEventCount,
      sampleBookingId := prev.bind (·.sampleBookingId),
      sampleDateLabel := prev.bind (·.sampleDateLabel),
      sampleGuestsHere := prevSampleGuests }

/-- `hallSlotUsage`: running aggregate per (date, slot, hallCode). -/
def hallSlotUsageOf (bookings : List MockBooking) :
    List (SlotHallKey × HallSlotUsage) :=
  (allocsOf bookings).foldl
    (fun m p => alSet m (allocKey p) (stepUsage (alGet m (allocKey p)) p.1 p.2)) []

/-- `slotHallBookings`: bookings listed per (date, slot, hallCode), one
entry per hall allocation, in traversal order. -/
def slotHallBookingsOf (bookings : List MockBooking) :
    List (SlotHallKey × List MockBooking) :=
  (allocsOf bookings).foldl
    (fun m p => alSet m (allocKey p) ((alGet m (allocKey p)).getD [] ++ [p.1])) []

/-- `daySlotBookings`: bookings grouped by (date, slot). -/
def daySlotBookingsOf (bookings : List MockBooking) :
    List (DaySlotKey × List MockBooking) :=
  bookings.foldl
    (fun m b => alSet m (daySlotKeyOf b) ((alGet m (daySlotKeyOf b)).getD [] ++ [b])) []

/-! ### Alert ids (template literals of the nine rules) -/

def capId (dk : String) (s : Slot) (h : HallCode) : String :=
  "cap-" ++ dk ++ "-" ++ slotName s ++ "-" ++ hallCodeStr h

def perfConflictId (dk : String) (s : Slot) (h : HallCode) : String :=
  "perf-conflict-" ++ dk ++ "-" ++ slotName s ++ "-" ++ hallCodeStr h

def softFollowId (i : Nat) : String :=
  "soft-follow-" ++ natToString i

def pastOpenId (i : Nat) : String :=
  "past-open-" ++ natToString i

def missingContactId (i : Nat) : String :=
  "missing-contact-" ++ natToString i

def splitMismatchId (i : Nat) : String :=
  "split-mismatch-" ++ natToString i

def highGuestsId (i : Nat) : String :=
  "high-guests-" ++ natToString i

def highAdvanceId (i : Nat) : String :=
  "high-advance-" ++ natToString i

def complexMultihallId (dk : String) (s : Slot) : String :=
  "complex-multihall-" ++ dk ++ "-" ++ slotName s

/-! ### Rule 1: capacity override (hall+slot aggregate) -/

def capacityAlert (k : SlotHallKey) (usage : HallSlotUsage) : AlertDefinition :=
  let dateLabel := usage.sampleDateLabel.getD k.1
  { id := capId k.1 k.2.1 k.2.2
    type := .CAPACITY_OVERRIDE
    severity := .critical
    bookingId := usage.sampleBookingId
    dateKey := some k.1
    slot := some k.2.1
    title := "Capacity override – Hall " ++ hallCodeStr k.2.2
    message := dateLabel ++ " (" ++ humanSlot k.2.1 ++ "): Hall " ++
      hallCodeStr k.2.2 ++ " has " ++ natToString usage.used ++
      " guests across " ++ natToString usage.eventCount ++ " event(s) for " ++
      natToString usage.capacity ++ " capacity."
    sub := some "This indicates the hall is overbooked for the same slot. Review allocations, safety, and get explicit manager approval if this is intentional." }

def capacityAlerts (m : List (SlotHallKey × HallSlotUsage)) : List AlertDefinition :=
  (m.filter fun e => decide (e.2.capacity < e.2.used)).map
    fun e => capacityAlert e.1 e.2

/-! ### Rule 2: performance + other event in the same hall -/

def performanceAlert (k : SlotHallKey) (list : List MockBooking) : AlertDefinition :=
  let anyWithPerf := list.find? (·.hasPerformance)
  let dateLabel := match anyWithPerf with
                   | some b => b.eventDateLabel
                   | none => k.1
  { id := perfConflictId k.1 k.2.1 k.2.2
    type := .PERFORMANCE_HALL_CONFLICT
    severity := .warning
    bookingId := anyWithPerf.map (·.id)
    dateKey := some k.1
    slot := some k.2.1
    title := "Performance + other event in same hall"
    message := "There are " ++ natToString list.length ++ " event(s) in Hall " ++
      hallCodeStr k.2.2 ++ " during " ++ humanSlot k.2.1 ++ " on " ++ dateLabel ++
      ", and at least one has a performance."
    sub := some "By rule, a hall with musical performance should usually be exclusive. Review and decide if this is acceptable (or dismiss with manager note)." }

def performanceAlerts (m : List (SlotHallKey × List MockBooking)) :
    List AlertDefinition :=
  (m.filter fun e => decide (1 < e.2.length) && e.2.any (·.hasPerformance)).map
    fun e => performanceAlert e.1 e.2

/-! ### Rules 3-8: per-booking rules -/

def perBookingAlerts (todayStart in15Days : Int) (b : MockBooking) :
    List AlertDefinition :=
  let d := b.eventDate
  let dk := dateKeyFromDate d
  -- 3) Inquiry / Tentative within 15 days – follow-up needed
  (if (b.status = .INQUIRY ∨ b.status = .TENTATIVE) ∧
      todayStart ≤ d ∧ d ≤ in15Days then
    [{ id := softFollowId b.id
       type := .SOFT_BOOKING_FOLLOWUP
       severity := .warning
       bookingId := some b.id
       dateKey := some dk
       slot := some b.slot
       title := if b.status = .INQUIRY then "Inquiry – follow up"
                else "Tentative – confirm or release"
       message := b.eventTitle ++ " on " ++ b.eventDateLabel ++ " (" ++
         humanSlot b.slot ++ ")."
       sub := some ("Status: " ++ statusName b.status ++ ". Contact: " ++
         b.customerName ++
         (if b.customerPhone = "" then "" else " – " ++ b.customerPhone) ++
         ". Please confirm or free the slot.") }]
  else []) ++
  -- 4) Past bookings that are not COMPLETED or CANCELLED
  (if d < todayStart ∧
      (b.status = .INQUIRY ∨ b.status = .TENTATIVE ∨ b.status = .CONFIRMED) then
    [{ id := pastOpenId b.id
       type := .PAST_NOT_CLOSED
       severity := .warning
       bookingId := some b.id
       dateKey := some dk
       slot := some b.slot
       title := "Past booking not closed"
       message := b.eventTitle ++ " on " ++ b.eventDateLabel ++
         " is still marked as " ++ statusName b.status ++ "."
       sub := some "Mark this booking as COMPLETED or CANCELLED so reporting and headcount stay accurate." }]
  else []) ++
  -- 5) Missing critical contact details (phone or address)
  (let missingPhone := jsTrim b.customerPhone = ""
   let missingAddress := jsTrim (b.customerAddress.getD "") = ""
   if missingPhone ∨ missingAddress then
    let missingParts := (if missingPhone then ["phone"] else []) ++
                        (if missingAddress then ["address"] else [])
    [{ id := missingContactId b.id
       type := .MISSING_CONTACT
       severity := .info
       bookingId := some b.id
       dateKey := some dk
       slot := some b.slot
       title := "Missing contact details"
       message := b.eventTitle ++ " is missing: " ++
         String.intercalate " & " missingParts ++ "."
       sub := some ("Customer: " ++ b.customerName ++ ". Add " ++
         String.intercalate " and " missingParts ++
         " so it’s easier to reach them and keep records complete.") }]
  else []) ++
  -- 6) Guest split mismatch (totalGuests vs Hall A/B split)
  (if b.hallAGuests ≠ none ∨ b.hallBGuests ≠ none then
    let sum := b.hallAGuests.getD 0 + b.hallBGuests.getD 0
    if b.totalGuests ≠ 0 ∧ sum ≠ b.totalGuests then
      [{ id := splitMismatchId b.id
         type := .GUEST_SPLIT_MISMATCH
         severity := .info
         bookingId := some b.id
         dateKey := some dk
         slot := some b.slot
         title := "Guest split mismatch"
         message := b.eventTitle ++ ": totalGuests = " ++
           natToString b.totalGuests ++ ", but Hall A + Hall B = " ++
           natToString sum ++ "."
         sub := some "Check hall splits – this affects capacity logic and guest reporting." }]
    else []
  else []) ++
  -- 7) High guest count (big event)
  (if 1500 ≤ b.totalGuests then
    [{ id := highGuestsId b.id
       type := .HIGH_GUEST_COUNT
       severity := .info
       bookingId := some b.id
       dateKey := some dk
       slot := some b.slot
       title := "Very large guest count"
       message := b.eventTitle ++ " has " ++ natToString b.totalGuests ++
         " guests planned."
       sub := some "Large event – double-check staffing, kitchen capacity, parking, and entry/exit flow." }]
  else []) ++
  -- 8) High advance value (high-value booking)
  (match b.advance with
   | some adv =>
     if 200000 ≤ adv.amount then
      [{ id := highAdvanceId b.id
         type := .HIGH_ADVANCE_VALUE
         severity := .info
         bookingId := some b.id
         dateKey := some dk
         slot := some b.slot
         title := "High-value booking (advance)"
         message := b.eventTitle ++ " has an advance of Rs " ++
           natToString adv.amount ++ "."
         sub := some ("Destination: " ++ adv.destinationAccount ++
           ". Keep an eye on finance follow-up and final payment.") }]
     else []
   | none => [])

/-! ### Rule 9: complex multi-hall / multi-function slots -/

def complexAlert (k : DaySlotKey) (list : List MockBooking) : AlertDefinition :=
  let multiHallEvents := list.filter fun b => decide (1 < b.halls.length)
  let labelDate := ((multiHallEvents.head?).map (·.eventDateLabel)).getD k.1
  { id := complexMultihallId k.1 k.2
    type := .COMPLEX_MULTI_HALL_DAY
    severity := .info
    dateKey := some k.1
    slot := some k.2
    title := "Complex multi-hall slot"
    message := natToString list.length ++ " events in this slot, with " ++
      natToString multiHallEvents.length ++ " using multiple halls (" ++
      humanSlot k.2 ++ " on " ++ labelDate ++ ")."
    sub := some "Worth reviewing allocations, timings, and movement carefully." }

def complexAlerts (m : List (DaySlotKey × List MockBooking)) : List AlertDefinition :=
  (m.filter fun e =>
      decide (1 < e.2.length) &&
      (decide (2 ≤ (e.2.filter fun b => decide (1 < b.halls.length)).length) ||
       decide (3 ≤ e.2.length))).map
    fun e => complexAlert e.1 e.2

/-! ### The main builder -/

/-- `buildAlerts(bookings, today)`: the pure alert derivation engine.
Output order is construction order: capacity overrides, performance
conflicts, the six per-booking rules interleaved per booking, then
complex multi-hall slots. -/
def buildAlerts (bookings : List MockBooking) (today : Int) : List AlertDefinition :=
  let todayStart := startOfDay today
  let in15Days := addDays todayStart 15
  capacityAlerts (hallSlotUsageOf bookings) ++
  performanceAlerts (slotHallBookingsOf bookings) ++
  bookings.flatMap (perBookingAlerts todayStart in15Days) ++
  complexAlerts (daySlotBookingsOf bookings)

/-! ### Alert resolution store (from `src/state/AlertStore.tsx`) -/

inductive AlertResolutionStatus
  | ACTIVE
  | RESOLVED
  | DISMISSED
deriving DecidableEq, Repr

structure AlertResolution where
  alertId : String
  status : AlertResolutionStatus
  note : Option String := none
  updatedAt : String
deriving DecidableEq, Repr

/-- The `Record<string, AlertResolution>` store state, as an insertion
ordered string-keyed map. -/
abbrev ResolutionMap := List (String × AlertResolution)

/-- The note normalization `note?.trim() || undefined`: a supplied note is
trimmed, and a missing or whitespace-only note becomes absent. -/
def noteOrUndefined (note : Option String) : Option String :=
  match note with
  | some s => if jsTrim s = "" then none else some (jsTrim s)
  | none => none

/-- `resolveAlert(alertId, note?)`: upsert status RESOLVED; the note falls
back to the previously stored note (`note?.trim() || prev[alertId]?.note`). -/
def resolveAlert (prev : ResolutionMap) (alertId : String) (note : Option String)
    (now : String) : ResolutionMap :=
  alSet prev alertId
    { alertId := alertId
      status := .RESOLVED
      note := match noteOrUndefined note with
              | some s => some s
              | none => (alGet prev alertId).bind (·.note)
      updatedAt := now }

/-- `dismissAlert(alertId, note?)`: upsert status DISMISSED; the note is the
supplied one or absent (`note?.trim() || undefined`), never the prior note. -/
def dismissAlert (prev : ResolutionMap) (alertId : String) (note : Option String)
    (now : String) : ResolutionMap :=
  alSet prev alertId
    { alertId := alertId
      status := .DISMISSED
      note := noteOrUndefined note
      updatedAt := now }

/-- `reopenAlert(alertId)`: delete the resolution record entirely. -/
def reopenAlert (prev : ResolutionMap) (alertId : String) : ResolutionMap :=
  alDelete prev alertId

/-! ### View-model merge -/

structure AlertWithResolution extends AlertDefinition where
  resolution : Option AlertResolution := none
  effectiveStatus : AlertResolutionStatus
deriving DecidableEq, Repr

/-- The `useMemo` merge: for each definition, look up the resolution by id;
`effectiveStatus = resolution?.status ?? "ACTIVE"`. -/
def mergeAlerts (baseAlerts : List AlertDefinition) (resolutions : ResolutionMap) :
    List AlertWithResolution :=
  baseAlerts.map fun d =>
    let res := alGet resolutions d.id
    { toAlertDefinition := d
      resolution := res
      effectiveStatus := (res.map (·.status)).getD .ACTIVE }

/-- `getAlertsForBooking(bookingId)`: only ACTIVE alerts linked to the booking. -/
def getAlertsForBooking (alerts : List AlertWithResolution) (bookingId : Nat) :
    List AlertWithResolution :=
  alerts.filter fun a =>
    decide (a.bookingId = some bookingId) &&
    decide (a.effectiveStatus = .ACTIVE)

/-! ### Load normalization of persisted resolutions -/

/-- JSON-like values, the result of `JSON.parse` on the persisted store. -/
inductive JValue
  | null
  | bool (b : Bool)
  | num (n : Int)
  | str (s : String)
  | arr (elems : List JValue)
  | obj (fields : List (String × JValue))

/-- The named fields of a value when `value && typeof value === "object"`
holds: an object's fields, an array's (none by name, so the empty list —
JS arrays are objects whose named properties here are all absent), and
`none` for null and primitives. -/
def jFields? : JValue → Option (List (String × JValue))
  | .obj fs => some fs
  | .arr _ => some []
  | _ => none

/-- Read a field that must be a string (`typeof v.f === "string"`). -/
def jStrField (fs : List (String × JValue)) (k : String) : Option String :=
  match alGet fs k with
  | some (.str s) => some s
  | _ => none

/-- The recovered note: `v.note` if a string, else the legacy `v.reason`. -/
def jNoteOf (fs : List (String × JValue)) : Option String :=
  match jStrField fs "note" with
  | some s => some s
  | none => jStrField fs "reason"

/-- The recovered timestamp: `v.updatedAt`, else the legacy `v.dismissedAt`,
else the legacy `v.resolvedAt`, else the current clock reading. -/
def jUpdatedAtOf (fs : List (String × JValue)) (now : String) : String :=
  match jStrField fs "updatedAt" with
  | some s => s
  | none =>
    match jStrField fs "dismissedAt" with
    | some s => s
    | none =>
      match jStrField fs "resolvedAt" with
      | some s => s
      | none => now

/-- Normalization of one persisted entry `[key, value]`; `none` models the
loop's `continue` (entry dropped). -/
def normalizeEntry (key : String) (value : JValue) (now : String) :
    Option AlertResolution :=
  match jFields? value with
  | none => none
  | some v =>
    let alertId := (jStrField v "alertId").getD key
    let statusRaw := (jStrField v "status").getD ""
    let status : AlertResolutionStatus :=
      if statusRaw = "DISMISSED" then .DISMISSED
      else if statusRaw = "RESOLVED" then .RESOLVED
      else .ACTIVE
    if alertId = "" then none
    else some
      { alertId := alertId
        status := status
        note := noteOrUndefined (jNoteOf v)
        updatedAt := jUpdatedAtOf v now }

/-- `Object.entries` of the parsed top-level value, when it passes
`input && typeof input === "object"`; an array enumerates index keys. -/
def jEntries : JValue → List (String × JValue)
  | .obj fs => fs
  | .arr xs => xs.enum.map fun p => (natToString p.1, p.2)
  | _ => []

/-- `normalizeResolutions`: entry-by-entry defensive normalization of the
persisted store; malformed entries are dropped individually. -/
def normalizeResolutions (input : JValue) (now : String) : ResolutionMap :=
  (jEntries input).foldl
    (fun out e =>
      match normalizeEntry e.1 e.2 now with
      | some r => alSet out r.alertId r
      | none => out)
    []

/-! ### Aggregates named by the specification

The spec's capacity rule speaks of the "summed guests-here across all hall
allocations" and the "maximum capacity observed" for a (date, slot, hall)
key.  These are the corresponding plain aggregates over a booking list. -/

/-- All hall allocations of a booking list that fall on a given
(date key, slot, hall code) key, in traversal order. -/
def allocsAt (bookings : List MockBooking) (k : SlotHallKey) :
    List (MockBooking × HallAllocation) :=
  (allocsOf bookings).filter fun p => decide (allocKey p = k)

/-- Summed guests-here across all hall allocations for a key. -/
def capSum (bookings : List MockBooking) (k : SlotHallKey) : Nat :=
  ((allocsAt bookings k).map fun p => p.2.guestsHere).sum

/-- Maximum capacity observed across the hall allocations for a key
(zero when the key has no allocation). -/
def capMax (bookings : List MockBooking) (k : SlotHallKey) : Nat :=
  ((allocsAt bookings k).map fun p => p.2.capacity).foldl max 0

/-- The per-allocation booking entries of the (date, slot, hall) group: one
entry per hall allocation on that key — a booking allocated twice to the
same hall appears twice. -/
def hallEntries (bookings : List MockBooking) (k : SlotHallKey) : List MockBooking :=
  (allocsAt bookings k).map fun p => p.1

/-- The tail of a capacity / performance-conflict alert id after the date
key: `-{slot}-{hallCode}`. -/
def slotHallTag (s : Slot) (h : HallCode) : String :=
  "-" ++ slotName s ++ "-" ++ hallCodeStr h

/-- The tail of a complex-multi-hall alert id after the date key:
`-{slot}`. -/
def slotTag (s : Slot) : String :=
  "-" ++ slotName s


/-! ### Concrete sample data used by witnesses and counterexamples -/

def hallAllocA (cap guests : Nat) : HallAllocation :=
  { hallCode := .A, hallName := "Hall A", capacity := cap, guestsHere := guests }

def baseBooking : MockBooking :=
  { id := 1, bookingRef := "LUX-2025-11-0001", eventTitle := "Mehndi",
    eventDateLabel := "01 Jan 1970", eventDate := 0, slot := .DINNER,
    totalGuests := 450, hallAGuests := some 450, hallBGuests := none,
    status := .CONFIRMED, customerName := "Hamza Khan",
    customerPhone := "0300-1110001", customerAddress := some "DHA Phase 5",
    hasPerformance := false,
    halls := [hallAllocA 1000 450] }

/-- A single booking whose halls array allocates Hall A twice, with a
performance. -/
def doubleAllocBooking : MockBooking :=
  { baseBooking with
    hasPerformance := true
    halls := [hallAllocA 1000 100, hallAllocA 1000 100] }


/-- A tentative booking dated exactly 15 days after the epoch reference day. -/
def tentativeB15 : MockBooking :=
  { baseBooking with
    status := .TENTATIVE
    eventDateLabel := "16 Jan 1970"
    eventDate := 1296000000 }

/-- A booking with a Hall A split entered that disagrees with the total. -/
def splitMismatchB : MockBooking :=
  { baseBooking with
    totalGuests := 500
    hallAGuests := some 200
    hallBGuests := none }


/-- A booking that overfills Hall A on its own. -/
def capOverB : MockBooking :=
  { baseBooking with
    totalGuests := 1200
    hallAGuests := some 1200
    halls := [hallAllocA 1000 1200] }

/-- A fallback alert value for list head lookups in witnesses. -/
def defaultAlert : AlertDefinition :=
  { id := "", type := .CAPACITY_OVERRIDE, severity := .info, title := "",
    message := "" }


/-- A legacy-shaped persisted entry: unknown status, `reason` in place of
`note`, `dismissedAt` in place of `updatedAt`. -/
def legacyFields : List (String × JValue) :=
  [("status", .str "WEIRD"), ("reason", .str " owner approved "),
   ("dismissedAt", .str "2020-01-01T00:00:00.000Z")]


/-- A second booking with a distinct id, for the id-distinctness witness. -/
def splitMismatchB2 : MockBooking :=
  { splitMismatchB with id := 2, bookingRef := "LUX-2025-11-0002" }

/-! ## Lemmas about decimal rendering -/

theorem natDigitsCore_append (fuel : Nat) :
    ∀ (n : Nat) (acc : List Char), n < fuel →
    natDigitsCore fuel n acc = natDigitsCore fuel n [] ++ acc := by
  induction fuel with
  | zero => intro n acc h; omega
  | succ fuel ih =>
    intro n acc h
    by_cases h10 : n < 10
    · simp [natDigitsCore, h10]
    · have hdiv : n / 10 < n := Nat.div_lt_self (by omega) (by omega)
      have hf : n / 10 < fuel := by omega
      simp only [natDigitsCore, if_neg h10]
      rw [ih (n / 10) (Nat.digitChar (n % 10) :: acc) hf,
          ih (n / 10) [Nat.digitChar (n % 10)] hf]
      simp

theorem natDigitsCore_fuel (n : Nat) :
    ∀ f1 f2 : Nat, n < f1 → n < f2 →
    natDigitsCore f1 n [] = natDigitsCore f2 n [] := by
  induction n using Nat.strong_induction_on with
  | _ n ih =>
    intro f1 f2 h1 h2
    match f1, f2 with
    | f1 + 1, f2 + 1 =>
      by_cases h10 : n < 10
      · simp [natDigitsCore, h10]
      · have hdiv : n / 10 < n := Nat.div_lt_self (by omega) (by omega)
        simp only [natDigitsCore, if_neg h10]
        rw [natDigitsCore_append f1 _ _ (by omega),
            natDigitsCore_append f2 _ _ (by omega),
            ih (n / 10) hdiv f1 f2 (by omega) (by omega)]

/-- The usual recurrence for most-significant-first decimal digits. -/
theorem natDigits_eq (n : Nat) :
    natDigits n =
      if n < 10 then [Nat.digitChar n]
      else natDigits (n / 10) ++ [Nat.digitChar (n % 10)] := by
  by_cases h10 : n < 10
  · simp [natDigits, natDigitsCore, h10]
  · have hdiv : n / 10 < n := Nat.div_lt_self (by omega) (by omega)
    rw [if_neg h10]
    show natDigitsCore (n + 1) n [] = _
    rw [show natDigitsCore (n + 1) n [] =
          natDigitsCore n (n / 10) [Nat.digitChar (n % 10)] from by
        simp [natDigitsCore, h10]]
    rw [natDigitsCore_append n _ _ (by omega),
        natDigitsCore_fuel (n / 10) n (n / 10 + 1) (by omega) (by omega)]
    rfl

theorem natDigits_ne_nil (n : Nat) : natDigits n ≠ [] := by
  rw [natDigits_eq]
  split <;> simp

theorem digitChar_inj :
    ∀ a : Nat, a < 10 → ∀ b : Nat, b < 10 →
    Nat.digitChar a = Nat.digitChar b → a = b := by decide

theorem natDigits_inj : ∀ m n : Nat, natDigits m = natDigits n → m = n := by
  intro m
  induction m using Nat.strong_induction_on with
  | _ m ih =>
    intro n h
    rw [natDigits_eq m, natDigits_eq n] at h
    by_cases hm : m < 10 <;> by_cases hn : n < 10
    · rw [if_pos hm, if_pos hn] at h
      exact digitChar_inj m hm n hn (List.singleton_injective h)
    · rw [if_pos hm, if_neg hn] at h
      have hlen := congrArg List.length h
      simp only [List.length_append, List.length_cons, List.length_nil] at hlen
      have hnil : natDigits (n / 10) = [] := List.length_eq_zero.mp (by omega)
      exact absurd hnil (natDigits_ne_nil (n / 10))
    · rw [if_neg hm, if_pos hn] at h
      have hlen := congrArg List.length h
      simp only [List.length_append, List.length_cons, List.length_nil] at hlen
      have hnil : natDigits (m / 10) = [] := List.length_eq_zero.mp (by omega)
      exact absurd hnil (natDigits_ne_nil (m / 10))
    · rw [if_neg hm, if_neg hn] at h
      have hlen : ([Nat.digitChar (m % 10)] : List Char).length =
          ([Nat.digitChar (n % 10)] : List Char).length := rfl
      obtain ⟨h1, h2⟩ := List.append_inj' h hlen
      have hdiv : m / 10 < m := Nat.div_lt_self (by omega) (by omega)
      have e1 : m / 10 = n / 10 := ih (m / 10) hdiv (n / 10) h1
      have e2 : m % 10 = n % 10 :=
        digitChar_inj (m % 10) (Nat.mod_lt _ (by omega)) (n % 10)
          (Nat.mod_lt _ (by omega)) (List.singleton_injective h2)
      omega

theorem natToString_inj : ∀ m n : Nat, natToString m = natToString n → m = n :=
  fun m n h => natDigits_inj m n (congrArg String.data h)

/-! ## Disambiguation of appended strings by heads and tails -/

theorem stringData_inj {s1 s2 : String} (h : s1.data = s2.data) : s1 = s2 := by
  cases s1
  cases s2
  exact congrArg String.mk h

theorem append_ne_of_incomparable {h1 h2 r1 r2 : List Char}
    (p1 : ¬ h1 <+: h2) (p2 : ¬ h2 <+: h1) : h1 ++ r1 ≠ h2 ++ r2 := by
  intro he
  have q1 : h1 <+: h2 ++ r2 := he ▸ List.prefix_append h1 r1
  have q2 : h2 <+: h2 ++ r2 := List.prefix_append h2 r2
  rcases List.prefix_or_prefix_of_prefix q1 q2 with hp | hp
  · exact p1 hp
  · exact p2 hp

theorem append_tail_ne {t1 t2 a b : List Char}
    (p1 : ¬ t1.reverse <+: t2.reverse) (p2 : ¬ t2.reverse <+: t1.reverse) :
    a ++ t1 ≠ b ++ t2 := by
  intro he
  have hr := congrArg List.reverse he
  rw [List.reverse_append, List.reverse_append] at hr
  exact append_ne_of_incomparable p1 p2 hr

/-- Two strings whose character data decompose with incomparable heads are
distinct. -/
theorem ne_of_data_heads {x y : String} {h1 h2 r1 r2 : List Char}
    (hx : x.data = h1 ++ r1) (hy : y.data = h2 ++ r2)
    (p1 : ¬ h1 <+: h2) (p2 : ¬ h2 <+: h1) : x ≠ y := by
  intro he
  exact append_ne_of_incomparable p1 p2 (hx ▸ hy ▸ congrArg String.data he)

/-! ## Alert-id decompositions and injectivity -/

theorem capId_data (dk : String) (s : Slot) (h : HallCode) :
    (capId dk s h).data = "cap-".data ++ (dk.data ++ (slotHallTag s h).data) := by
  simp [capId, slotHallTag, List.append_assoc]

theorem perfConflictId_data (dk : String) (s : Slot) (h : HallCode) :
    (perfConflictId dk s h).data =
      "perf-conflict-".data ++ (dk.data ++ (slotHallTag s h).data) := by
  simp [perfConflictId, slotHallTag, List.append_assoc]

theorem complexMultihallId_data (dk : String) (s : Slot) :
    (complexMultihallId dk s).data =
      "complex-multihall-".data ++ (dk.data ++ (slotTag s).data) := by
  simp [complexMultihallId, slotTag, List.append_assoc]

theorem softFollowId_data (i : Nat) :
    (softFollowId i).data = "soft-follow-".data ++ (natToString i).data := by
  simp [softFollowId]

theorem pastOpenId_data (i : Nat) :
    (pastOpenId i).data = "past-open-".data ++ (natToString i).data := by
  simp [pastOpenId]

theorem missingContactId_data (i : Nat) :
    (missingContactId i).data = "missing-contact-".data ++ (natToString i).data := by
  simp [missingContactId]

theorem splitMismatchId_data (i : Nat) :
    (splitMismatchId i).data = "split-mismatch-".data ++ (natToString i).data := by
  simp [splitMismatchId]

theorem highGuestsId_data (i : Nat) :
    (highGuestsId i).data = "high-guests-".data ++ (natToString i).data := by
  simp [highGuestsId]

theorem highAdvanceId_data (i : Nat) :
    (highAdvanceId i).data = "high-advance-".data ++ (natToString i).data := by
  simp [highAdvanceId]

theorem capId_inj {dk1 dk2 : String} {s1 s2 : Slot} {h1 h2 : HallCode}
    (he : capId dk1 s1 h1 = capId dk2 s2 h2) : dk1 = dk2 ∧ s1 = s2 ∧ h1 = h2 := by
  have hd := congrArg String.data he
  rw [capId_data, capId_data] at hd
  have he' := (List.append_inj hd rfl).2
  cases s1 <;> cases s2 <;> cases h1 <;> cases h2
  all_goals first
    | exact ⟨stringData_inj (List.append_inj' he' rfl).1, rfl, rfl⟩
    | exact absurd he' (append_tail_ne (by decide) (by decide))

theorem perfConflictId_inj {dk1 dk2 : String} {s1 s2 : Slot} {h1 h2 : HallCode}
    (he : perfConflictId dk1 s1 h1 = perfConflictId dk2 s2 h2) :
    dk1 = dk2 ∧ s1 = s2 ∧ h1 = h2 := by
  have hd := congrArg String.data he
  rw [perfConflictId_data, perfConflictId_data] at hd
  have he' := (List.append_inj hd rfl).2
  cases s1 <;> cases s2 <;> cases h1 <;> cases h2
  all_goals first
    | exact ⟨stringData_inj (List.append_inj' he' rfl).1, rfl, rfl⟩
    | exact absurd he' (append_tail_ne (by decide) (by decide))

theorem complexMultihallId_inj {dk1 dk2 : String} {s1 s2 : Slot}
    (he : complexMultihallId dk1 s1 = complexMultihallId dk2 s2) :
    dk1 = dk2 ∧ s1 = s2 := by
  have hd := congrArg String.data he
  rw [complexMultihallId_data, complexMultihallId_data] at hd
  have he' := (List.append_inj hd rfl).2
  cases s1 <;> cases s2
  all_goals first
    | exact ⟨stringData_inj (List.append_inj' he' rfl).1, rfl⟩
    | exact absurd he' (append_tail_ne (by decide) (by decide))

/-! ## Association-list lemmas (JS map semantics) -/

theorem alGet_alSet_self {κ α : Type} [DecidableEq κ]
    (m : List (κ × α)) (k : κ) (v : α) : alGet (alSet m k v) k = some v := by
  induction m with
  | nil => simp [alSet, alGet]
  | cons e rest ih =>
    obtain ⟨k', v'⟩ := e
    by_cases h : k' = k
    · simp [alSet, h, alGet]
    · simp [alSet, h, alGet, ih]

theorem alGet_alSet_ne {κ α : Type} [DecidableEq κ]
    (m : List (κ × α)) {k' k : κ} (v : α) (h : k' ≠ k) :
    alGet (alSet m k' v) k = alGet m k := by
  induction m with
  | nil => simp [alSet, alGet, h]
  | cons e rest ih =>
    obtain ⟨k0, v0⟩ := e
    by_cases h0 : k0 = k'
    · simp [alSet, h0, alGet, h]
    · by_cases h1 : k0 = k <;> simp [alSet, h0, alGet, h1, Ne.symm h, ih]

theorem alGet_eq_none_of_not_mem {κ α : Type} [DecidableEq κ]
    {m : List (κ × α)} {k : κ} (h : k ∉ alKeys m) : alGet m k = none := by
  induction m with
  | nil => rfl
  | cons e rest ih =>
    obtain ⟨k0, v0⟩ := e
    simp only [alKeys, List.map_cons, List.mem_cons] at h
    push_neg at h
    simpa [alGet, Ne.symm h.1] using ih (by simpa [alKeys] using h.2)

theorem alGet_eq_some_of_mem {κ α : Type} [DecidableEq κ]
    {m : List (κ × α)} (hn : (alKeys m).Nodup) {k : κ} {v : α}
    (hm : (k, v) ∈ m) : alGet m k = some v := by
  induction m with
  | nil => simp at hm
  | cons e rest ih =>
    obtain ⟨k0, v0⟩ := e
    simp only [alKeys, List.map_cons, List.nodup_cons] at hn
    rcases List.mem_cons.mp hm with he | hm'
    · obtain ⟨rfl, rfl⟩ := Prod.mk.injEq .. ▸ he
      simp [alGet]
    · have hk : k0 ≠ k := by
        rintro rfl
        exact hn.1 (List.mem_map.mpr ⟨(k0, v), hm', rfl⟩)
      simpa [alGet, hk] using ih (by simpa [alKeys] using hn.2) hm'

theorem mem_of_alGet_eq_some {κ α : Type} [DecidableEq κ]
    {m : List (κ × α)} {k : κ} {v : α} (h : alGet m k = some v) : (k, v) ∈ m := by
  induction m with
  | nil => simp [alGet] at h
  | cons e rest ih =>
    obtain ⟨k0, v0⟩ := e
    by_cases hk : k0 = k
    · subst hk
      simp [alGet] at h
      simp [h]
    · simp only [alGet, if_neg hk] at h
      exact List.mem_cons_of_mem _ (ih h)

theorem alKeys_alSet {κ α : Type} [DecidableEq κ]
    (m : List (κ × α)) (k : κ) (v : α) :
    alKeys (alSet m k v) =
      if k ∈ alKeys m then alKeys m else alKeys m ++ [k] := by
  induction m with
  | nil => simp [alSet, alKeys]
  | cons e rest ih =>
    obtain ⟨k0, v0⟩ := e
    by_cases h0 : k0 = k
    · subst h0
      simp [alSet, alKeys]
    · simp only [alSet, if_neg h0]
      have hcons : alKeys ((k0, v0) :: alSet rest k v) = k0 :: alKeys (alSet rest k v) := rfl
      have hcons2 : alKeys ((k0, v0) :: rest) = k0 :: alKeys rest := rfl
      rw [hcons, ih, hcons2]
      by_cases hm : k ∈ alKeys rest
      · rw [if_pos hm, if_pos (List.mem_cons_of_mem _ hm)]
      · rw [if_neg hm,
          if_neg (by
            intro hc
            rcases List.mem_cons.mp hc with hh | hh
            · exact h0 hh.symm
            · exact hm hh)]
        rw [List.cons_append]

theorem nodup_alKeys_alSet {κ α : Type} [DecidableEq κ]
    {m : List (κ × α)} (hn : (alKeys m).Nodup) (k : κ) (v : α) :
    (alKeys (alSet m k v)).Nodup := by
  rw [alKeys_alSet]
  by_cases hm : k ∈ alKeys m
  · simpa [hm] using hn
  · simp [hm, List.nodup_append, hn]

theorem alGet_alDelete {κ α : Type} [DecidableEq κ]
    {m : List (κ × α)} (hn : (alKeys m).Nodup) (k k' : κ) :
    alGet (alDelete m k) k' = if k' = k then none else alGet m k' := by
  induction m with
  | nil => simp [alDelete, alGet]
  | cons e rest ih =>
    obtain ⟨k0, v0⟩ := e
    simp only [alKeys, List.map_cons, List.nodup_cons] at hn
    by_cases h0 : k0 = k
    · subst h0
      by_cases hk : k' = k0
      · subst hk
        simp [alDelete, alGet_eq_none_of_not_mem (by simpa [alKeys] using hn.1)]
      · simp [alDelete, alGet, Ne.symm hk, hk]
    · by_cases hk : k0 = k'
      · subst hk
        simp [alDelete, h0, alGet]
      · simp only [alDelete, if_neg h0, alGet, if_neg hk]
        exact ih (by simpa [alKeys] using hn.2)

theorem countP_entries_nodup {κ α : Type} [DecidableEq κ]
    {m : List (κ × α)} (hn : (alKeys m).Nodup) (k : κ) (p : α → Bool) :
    (m.countP fun e => decide (e.1 = k) && p e.2) =
      match alGet m k with
      | some v => if p v then 1 else 0
      | none => 0 := by
  induction m with
  | nil => simp [alGet]
  | cons e rest ih =>
    obtain ⟨k0, v0⟩ := e
    simp only [alKeys, List.map_cons, List.nodup_cons] at hn
    rw [List.countP_cons]
    by_cases h0 : k0 = k
    · subst h0
      have hz : (rest.countP fun e => decide (e.1 = k0) && p e.2) = 0 := by
        rw [List.countP_eq_zero]
        intro e he
        have : e.1 ≠ k0 := by
          rintro rfl
          exact hn.1 (List.mem_map.mpr ⟨e, he, rfl⟩)
        simp [this]
      simp only [hz, alGet, if_pos rfl]
      by_cases hp : p v0 <;> simp [hp]
    · have := ih (by simpa [alKeys] using hn.2)
      simp only [alGet, if_neg h0]
      simp [this, h0]

/-! ## Characterizing the indexing folds -/

theorem alGet_foldl_group {α κ β : Type} [DecidableEq κ]
    (key : α → κ) (upd : Option β → α → β) :
    ∀ (l : List α) (m : List (κ × β)) (k : κ),
    alGet (l.foldl (fun m a => alSet m (key a) (upd (alGet m (key a)) a)) m) k =
      (l.filter fun a => decide (key a = k)).foldl
        (fun acc a => some (upd acc a)) (alGet m k) := by
  intro l
  induction l with
  | nil => intro m k; rfl
  | cons a l ih =>
    intro m k
    rw [List.foldl_cons, ih, List.filter_cons]
    by_cases hk : key a = k
    · rw [if_pos (by simpa using hk), List.foldl_cons, ← hk, alGet_alSet_self]
    · rw [if_neg (by simpa using hk), alGet_alSet_ne m _ hk]

theorem nodup_alKeys_foldl_group {α κ β : Type} [DecidableEq κ]
    (key : α → κ) (upd : Option β → α → β) :
    ∀ (l : List α) (m : List (κ × β)), (alKeys m).Nodup →
    (alKeys (l.foldl (fun m a => alSet m (key a) (upd (alGet m (key a)) a)) m)).Nodup := by
  intro l
  induction l with
  | nil => intro m hm; exact hm
  | cons a l ih =>
    intro m hm
    exact ih _ (nodup_alKeys_alSet hm _ _)

theorem foldl_group_list {α β : Type} (f : α → β) :
    ∀ (l : List α) (o : Option (List β)),
    l.foldl (fun acc a => some (acc.getD [] ++ [f a])) o =
      if l.isEmpty then o else some (o.getD [] ++ l.map f) := by
  intro l
  induction l with
  | nil => intro o; rfl
  | cons a l ih =>
    intro o
    rw [List.foldl_cons, ih]
    by_cases hl : l.isEmpty
    · rw [if_pos hl, if_neg (by simp)]
      rw [List.isEmpty_iff.mp hl]
      simp
    · rw [if_neg hl, if_neg (by simp)]
      simp [List.append_assoc]

theorem alGet_hallSlotUsageOf (bookings : List MockBooking) (k : SlotHallKey) :
    alGet (hallSlotUsageOf bookings) k =
      (allocsAt bookings k).foldl
        (fun acc p => some (stepUsage acc p.1 p.2)) none :=
  alGet_foldl_group allocKey (fun acc p => stepUsage acc p.1 p.2)
    (allocsOf bookings) [] k

theorem alGet_slotHallBookingsOf (bookings : List MockBooking) (k : SlotHallKey) :
    alGet (slotHallBookingsOf bookings) k =
      if (allocsAt bookings k).isEmpty then none
      else some (hallEntries bookings k) := by
  refine (alGet_foldl_group allocKey (fun acc p => acc.getD [] ++ [p.1])
    (allocsOf bookings) [] k).trans ?_
  refine (foldl_group_list (fun p : MockBooking × HallAllocation => p.1)
    ((allocsOf bookings).filter fun a => decide (allocKey a = k)) (alGet [] k)).trans ?_
  rfl

theorem alGet_daySlotBookingsOf (bookings : List MockBooking) (k : DaySlotKey) :
    alGet (daySlotBookingsOf bookings) k =
      if (bookings.filter fun b => decide (daySlotKeyOf b = k)).isEmpty then none
      else some (bookings.filter fun b => decide (daySlotKeyOf b = k)) := by
  refine (alGet_foldl_group daySlotKeyOf (fun acc b => acc.getD [] ++ [b])
    bookings [] k).trans ?_
  refine (foldl_group_list (fun b : MockBooking => b)
    (bookings.filter fun b => decide (daySlotKeyOf b = k)) (alGet [] k)).trans ?_
  by_cases hc : (bookings.filter fun b => decide (daySlotKeyOf b = k)).isEmpty <;>
    simp [hc, alGet]

theorem nodup_alKeys_hallSlotUsageOf (bookings : List MockBooking) :
    (alKeys (hallSlotUsageOf bookings)).Nodup :=
  nodup_alKeys_foldl_group allocKey (fun acc p => stepUsage acc p.1 p.2)
    (allocsOf bookings) [] (by simp [alKeys])

theorem nodup_alKeys_slotHallBookingsOf (bookings : List MockBooking) :
    (alKeys (slotHallBookingsOf bookings)).Nodup :=
  nodup_alKeys_foldl_group allocKey (fun acc p => acc.getD [] ++ [p.1])
    (allocsOf bookings) [] (by simp [alKeys])

theorem nodup_alKeys_daySlotBookingsOf (bookings : List MockBooking) :
    (alKeys (daySlotBookingsOf bookings)).Nodup :=
  nodup_alKeys_foldl_group daySlotKeyOf (fun acc b => acc.getD [] ++ [b])
    bookings [] (by simp [alKeys])

/-! ## Characterizing the usage aggregate -/

theorem stepUsage_some (u : HallSlotUsage) (b : MockBooking) (h : HallAllocation) :
    (stepUsage (some u) b h).used = u.used + h.guestsHere ∧
    (stepUsage (some u) b h).capacity = max u.capacity h.capacity ∧
    ((stepUsage (some u) b h).sampleBookingId.isSome = true ∨
      (stepUsage (some u) b h).sampleBookingId = u.sampleBookingId) := by
  simp only [stepUsage]
  split <;> simp

theorem usage_foldl_props :
    ∀ (l : List (MockBooking × HallAllocation)) (u : HallSlotUsage),
    ∃ u', l.foldl (fun acc p => some (stepUsage acc p.1 p.2)) (some u) = some u' ∧
      u'.used = u.used + (l.map fun p => p.2.guestsHere).sum ∧
      u'.capacity = (l.map fun p => p.2.capacity).foldl max u.capacity ∧
      (u.sampleBookingId.isSome = true → u'.sampleBookingId.isSome = true) := by
  intro l
  induction l with
  | nil =>
    intro u
    exact ⟨u, rfl, by simp, by simp, fun h => h⟩
  | cons p l ih =>
    intro u
    obtain ⟨u', hfold, hused, hcap, hsample⟩ := ih (stepUsage (some u) p.1 p.2)
    obtain ⟨hu1, hc1, hs1⟩ := stepUsage_some u p.1 p.2
    refine ⟨u', by simpa using hfold, ?_, ?_, ?_⟩
    · rw [hused, hu1, List.map_cons, List.sum_cons]
      omega
    · rw [hcap, hc1, List.map_cons, List.foldl_cons]
    · intro hu
      apply hsample
      rcases hs1 with hs | hs
      · exact hs
      · rw [hs]; exact hu

theorem stepUsage_none (b : MockBooking) (h : HallAllocation) :
    (stepUsage none b h).used = h.guestsHere ∧
    (stepUsage none b h).capacity = h.capacity ∧
    (stepUsage none b h).sampleBookingId = some b.id := by
  simp [stepUsage]

theorem usage_foldl_none_props (l : List (MockBooking × HallAllocation))
    (hne : l.isEmpty = false) :
    ∃ u', l.foldl (fun acc p => some (stepUsage acc p.1 p.2)) none = some u' ∧
      u'.used = (l.map fun p => p.2.guestsHere).sum ∧
      u'.capacity = (l.map fun p => p.2.capacity).foldl max 0 ∧
      u'.sampleBookingId.isSome = true := by
  match l with
  | [] => simp at hne
  | p :: l =>
    obtain ⟨u', hfold, hused, hcap, hsample⟩ :=
      usage_foldl_props l (stepUsage none p.1 p.2)
    obtain ⟨hu0, hc0, hs0⟩ := stepUsage_none p.1 p.2
    refine ⟨u', by simpa using hfold, ?_, ?_, ?_⟩
    · rw [hused, hu0, List.map_cons, List.sum_cons]
    · rw [hcap, hc0, List.map_cons, List.foldl_cons, Nat.zero_max]
    · exact hsample (by rw [hs0]; rfl)


/-! ## Shapes of the emitted alert lists -/

theorem mem_ite_singleton {α : Type} {c : Prop} [Decidable c] {x a : α}
    (h : a ∈ (if c then [x] else [])) : a = x ∧ c := by
  by_cases hc : c
  · rw [if_pos hc] at h
    exact ⟨List.mem_singleton.mp h, hc⟩
  · rw [if_neg hc] at h
    cases h

theorem countP_ite_singleton {α : Type} (c : Prop) [Decidable c] (x : α)
    (p : α → Bool) :
    (if c then [x] else []).countP p = if c ∧ p x = true then 1 else 0 := by
  by_cases hc : c <;> by_cases hp : p x = true <;>
    simp [hc, hp, List.countP_cons]

theorem buildAlerts_eq (bookings : List MockBooking) (today : Int) :
    buildAlerts bookings today =
      capacityAlerts (hallSlotUsageOf bookings) ++
      (performanceAlerts (slotHallBookingsOf bookings) ++
      (bookings.flatMap
        (perBookingAlerts (startOfDay today) (addDays (startOfDay today) 15)) ++
      complexAlerts (daySlotBookingsOf bookings))) := by
  simp [buildAlerts, List.append_assoc]

theorem capacityAlerts_mem {m : List (SlotHallKey × HallSlotUsage)}
    {a : AlertDefinition} (h : a ∈ capacityAlerts m) :
    ∃ e, e ∈ m ∧ e.2.capacity < e.2.used ∧ a = capacityAlert e.1 e.2 := by
  obtain ⟨e, he, rfl⟩ := List.mem_map.mp h
  obtain ⟨he', hq⟩ := List.mem_filter.mp he
  exact ⟨e, he', by simpa using hq, rfl⟩

theorem performanceAlerts_mem {m : List (SlotHallKey × List MockBooking)}
    {a : AlertDefinition} (h : a ∈ performanceAlerts m) :
    ∃ e, e ∈ m ∧ 1 < e.2.length ∧ e.2.any (·.hasPerformance) = true ∧
      a = performanceAlert e.1 e.2 := by
  obtain ⟨e, he, rfl⟩ := List.mem_map.mp h
  obtain ⟨he', hq⟩ := List.mem_filter.mp he
  simp only [Bool.and_eq_true, decide_eq_true_eq] at hq
  exact ⟨e, he', hq.1, hq.2, rfl⟩

theorem complexAlerts_mem {m : List (DaySlotKey × List MockBooking)}
    {a : AlertDefinition} (h : a ∈ complexAlerts m) :
    ∃ e, e ∈ m ∧ a = complexAlert e.1 e.2 := by
  obtain ⟨e, he, rfl⟩ := List.mem_map.mp h
  exact ⟨e, (List.mem_filter.mp he).1, rfl⟩

theorem perBookingAlerts_shape (ts i15 : Int) (b : MockBooking) :
    ∀ a ∈ perBookingAlerts ts i15 b,
      a.bookingId = some b.id ∧
      (a.type = .SOFT_BOOKING_FOLLOWUP ∨ a.type = .PAST_NOT_CLOSED ∨
       a.type = .MISSING_CONTACT ∨ a.type = .GUEST_SPLIT_MISMATCH ∨
       a.type = .HIGH_GUEST_COUNT ∨ a.type = .HIGH_ADVANCE_VALUE) := by
  intro a ha
  simp only [perBookingAlerts, List.mem_append] at ha
  rcases ha with ((((h | h) | h) | h) | h) | h
  · obtain ⟨rfl, -⟩ := mem_ite_singleton h
    exact ⟨rfl, by simp⟩
  · obtain ⟨rfl, -⟩ := mem_ite_singleton h
    exact ⟨rfl, by simp⟩
  · obtain ⟨rfl, -⟩ := mem_ite_singleton h
    exact ⟨rfl, by simp⟩
  · by_cases hc : b.hallAGuests ≠ none ∨ b.hallBGuests ≠ none
    · rw [if_pos hc] at h
      obtain ⟨rfl, -⟩ := mem_ite_singleton h
      exact ⟨rfl, by simp⟩
    · rw [if_neg hc] at h
      cases h
  · obtain ⟨rfl, -⟩ := mem_ite_singleton h
    exact ⟨rfl, by simp⟩
  · revert h
    cases b.advance with
    | none =>
      intro h
      cases h
    | some adv =>
      intro h
      obtain ⟨rfl, -⟩ := mem_ite_singleton h
      exact ⟨rfl, by simp⟩

/-! ## Counting alerts per rule -/

theorem countP_ite_nil {α : Type} (c : Prop) [Decidable c] (l : List α)
    (p : α → Bool) :
    (if c then l else []).countP p = if c then l.countP p else 0 := by
  split <;> simp

theorem countP_flatMap {α β : Type} (p : β → Bool) :
    ∀ (l : List α) (f : α → List β),
    (l.flatMap f).countP p = (l.map fun a => (f a).countP p).sum := by
  intro l f
  induction l with
  | nil => rfl
  | cons a l ih => simp [List.flatMap_cons, List.countP_append, ih]

theorem sum_single_of_nodup_ids {β : Type} [AddCommMonoid β] :
    ∀ (l : List MockBooking) (b : MockBooking) (g : MockBooking → β),
    (l.map (·.id)).Nodup → b ∈ l → (∀ b', b'.id ≠ b.id → g b' = 0) →
    (l.map g).sum = g b := by
  intro l
  induction l with
  | nil => intro b g _ hb; cases hb
  | cons a l ih =>
    intro b g hn hb hg
    simp only [List.map_cons, List.nodup_cons] at hn
    by_cases hid : a.id = b.id
    · have hbl : b ∉ l := by
        intro hbl
        exact hn.1 (hid ▸ List.mem_map.mpr ⟨b, hbl, rfl⟩)
      have hba : b = a := by
        rcases List.mem_cons.mp hb with h | h
        · exact h
        · exact absurd h hbl
      subst hba
      have hz : (l.map g).sum = 0 := by
        apply List.sum_eq_zero
        intro x hx
        obtain ⟨b', hb', rfl⟩ := List.mem_map.mp hx
        apply hg
        intro hco
        exact hn.1 (hco ▸ List.mem_map.mpr ⟨b', hb', rfl⟩)
      simp [hz]
    · have hbl : b ∈ l := by
        rcases List.mem_cons.mp hb with h | h
        · exact absurd (h ▸ rfl) (Ne.symm hid)
        · exact h
      rw [List.map_cons, List.sum_cons, hg a hid, ih b g hn.2 hbl hg, zero_add]

theorem countP_capacityAlerts (m : List (SlotHallKey × HallSlotUsage))
    (k : SlotHallKey) (p : AlertDefinition → Bool)
    (hp : ∀ k' u, p (capacityAlert k' u) = decide (k' = k)) :
    (capacityAlerts m).countP p =
      m.countP fun e => decide (e.1 = k) && decide (e.2.capacity < e.2.used) := by
  unfold capacityAlerts
  rw [List.countP_map, List.countP_filter]
  apply List.countP_congr
  intro e he
  simp only [Function.comp, hp e.1 e.2]

theorem capacity_count (bookings : List MockBooking) (k : SlotHallKey)
    (p : AlertDefinition → Bool)
    (hp : ∀ k' u, p (capacityAlert k' u) = decide (k' = k)) :
    (capacityAlerts (hallSlotUsageOf bookings)).countP p =
      if capMax bookings k < capSum bookings k then 1 else 0 := by
  rw [countP_capacityAlerts _ k p hp,
      countP_entries_nodup (nodup_alKeys_hallSlotUsageOf bookings) k
        (fun u => decide (u.capacity < u.used)),
      alGet_hallSlotUsageOf]
  by_cases hne : (allocsAt bookings k).isEmpty
  · rw [List.isEmpty_iff.mp hne]
    simp [capSum, capMax, List.isEmpty_iff.mp hne]
  · obtain ⟨u, hf, hused, hcap, -⟩ :=
      usage_foldl_none_props _ (by simpa using hne)
    rw [hf]
    show (if decide (u.capacity < u.used) = true then 1 else 0) = _
    have h1 : capSum bookings k = u.used := hused.symm
    have h2 : capMax bookings k = u.capacity := hcap.symm
    rw [h1, h2]
    simp

theorem countP_performanceAlerts (m : List (SlotHallKey × List MockBooking))
    (k : SlotHallKey) (p : AlertDefinition → Bool)
    (hp : ∀ k' l, p (performanceAlert k' l) = decide (k' = k)) :
    (performanceAlerts m).countP p =
      m.countP fun e =>
        decide (e.1 = k) &&
        (decide (1 < e.2.length) && e.2.any (·.hasPerformance)) := by
  unfold performanceAlerts
  rw [List.countP_map, List.countP_filter]
  apply List.countP_congr
  intro e he
  simp only [Function.comp, hp e.1 e.2]

theorem performance_count (bookings : List MockBooking) (k : SlotHallKey)
    (p : AlertDefinition → Bool)
    (hp : ∀ k' l, p (performanceAlert k' l) = decide (k' = k)) :
    (performanceAlerts (slotHallBookingsOf bookings)).countP p =
      if 2 ≤ (hallEntries bookings k).length ∧
          (hallEntries bookings k).any (·.hasPerformance) = true
      then 1 else 0 := by
  rw [countP_performanceAlerts _ k p hp,
      countP_entries_nodup (nodup_alKeys_slotHallBookingsOf bookings) k
        (fun l => decide (1 < l.length) && l.any (·.hasPerformance)),
      alGet_slotHallBookingsOf]
  by_cases hne : (allocsAt bookings k).isEmpty
  · rw [if_pos hne]
    have : hallEntries bookings k = [] := by
      simp [hallEntries, List.isEmpty_iff.mp hne]
    simp [this]
  · rw [if_neg hne]
    show (if (decide (1 < (hallEntries bookings k).length) &&
        (hallEntries bookings k).any (·.hasPerformance)) = true then 1 else 0) = _
    by_cases h1 : 2 ≤ (hallEntries bookings k).length <;>
      by_cases h2 : (hallEntries bookings k).any (·.hasPerformance) = true <;>
      simp [h1, h2,
        show (1 < (hallEntries bookings k).length) =
          (2 ≤ (hallEntries bookings k).length) from rfl]

theorem countP_perBookingAlerts_soft (ts i15 : Int) (b : MockBooking) (bid : Nat) :
    ((perBookingAlerts ts i15 b).countP fun a =>
        decide (a.type = .SOFT_BOOKING_FOLLOWUP) && decide (a.bookingId = some bid)) =
      if ((b.status = .INQUIRY ∨ b.status = .TENTATIVE) ∧
          ts ≤ b.eventDate ∧ b.eventDate ≤ i15) ∧ b.id = bid
      then 1 else 0 := by
  cases hadv : b.advance with
  | none =>
    simp only [perBookingAlerts, hadv, List.countP_append]
    rw [countP_ite_singleton, countP_ite_singleton, countP_ite_singleton,
        countP_ite_nil, countP_ite_singleton]
    by_cases h3 : (b.status = .INQUIRY ∨ b.status = .TENTATIVE) ∧
        ts ≤ b.eventDate ∧ b.eventDate ≤ i15 <;>
      by_cases hid : b.id = bid <;>
      simp [h3, hid]
  | some adv =>
    simp only [perBookingAlerts, hadv, List.countP_append]
    rw [countP_ite_singleton, countP_ite_singleton, countP_ite_singleton,
        countP_ite_nil, countP_ite_singleton, countP_ite_singleton,
        countP_ite_singleton]
    by_cases h3 : (b.status = .INQUIRY ∨ b.status = .TENTATIVE) ∧
        ts ≤ b.eventDate ∧ b.eventDate ≤ i15 <;>
      by_cases hid : b.id = bid <;>
      simp [h3, hid]

theorem countP_perBookingAlerts_past (ts i15 : Int) (b : MockBooking) (bid : Nat) :
    ((perBookingAlerts ts i15 b).countP fun a =>
        decide (a.type = .PAST_NOT_CLOSED) && decide (a.bookingId = some bid)) =
      if (b.eventDate < ts ∧
          (b.status = .INQUIRY ∨ b.status = .TENTATIVE ∨ b.status = .CONFIRMED)) ∧
          b.id = bid
      then 1 else 0 := by
  cases hadv : b.advance with
  | none =>
    simp only [perBookingAlerts, hadv, List.countP_append]
    rw [countP_ite_singleton, countP_ite_singleton, countP_ite_singleton,
        countP_ite_nil, countP_ite_singleton]
    by_cases h4 : b.eventDate < ts ∧
        (b.status = .INQUIRY ∨ b.status = .TENTATIVE ∨ b.status = .CONFIRMED) <;>
      by_cases hid : b.id = bid <;>
      simp [h4, hid]
  | some adv =>
    simp only [perBookingAlerts, hadv, List.countP_append]
    rw [countP_ite_singleton, countP_ite_singleton, countP_ite_singleton,
        countP_ite_nil, countP_ite_singleton, countP_ite_singleton,
        countP_ite_singleton]
    by_cases h4 : b.eventDate < ts ∧
        (b.status = .INQUIRY ∨ b.status = .TENTATIVE ∨ b.status = .CONFIRMED) <;>
      by_cases hid : b.id = bid <;>
      simp [h4, hid]

theorem countP_perBookingAlerts_split (ts i15 : Int) (b : MockBooking) (bid : Nat) :
    ((perBookingAlerts ts i15 b).countP fun a =>
        decide (a.type = .GUEST_SPLIT_MISMATCH) && decide (a.bookingId = some bid)) =
      if ((b.hallAGuests ≠ none ∨ b.hallBGuests ≠ none) ∧
          (b.totalGuests ≠ 0 ∧
            b.hallAGuests.getD 0 + b.hallBGuests.getD 0 ≠ b.totalGuests)) ∧
          b.id = bid
      then 1 else 0 := by
  cases hadv : b.advance with
  | none =>
    simp only [perBookingAlerts, hadv, List.countP_append]
    rw [countP_ite_singleton, countP_ite_singleton, countP_ite_singleton,
        countP_ite_nil, countP_ite_singleton]
    by_cases h6a : b.hallAGuests ≠ none ∨ b.hallBGuests ≠ none <;>
      by_cases h6b : b.totalGuests ≠ 0 ∧
        b.hallAGuests.getD 0 + b.hallBGuests.getD 0 ≠ b.totalGuests <;>
      by_cases hid : b.id = bid <;>
      simp [h6a, h6b, hid]
  | some adv =>
    simp only [perBookingAlerts, hadv, List.countP_append]
    rw [countP_ite_singleton, countP_ite_singleton, countP_ite_singleton,
        countP_ite_nil, countP_ite_singleton, countP_ite_singleton,
        countP_ite_singleton]
    by_cases h6a : b.hallAGuests ≠ none ∨ b.hallBGuests ≠ none <;>
      by_cases h6b : b.totalGuests ≠ 0 ∧
        b.hallAGuests.getD 0 + b.hallBGuests.getD 0 ≠ b.totalGuests <;>
      by_cases hid : b.id = bid <;>
      simp [h6a, h6b, hid]

theorem capacityAlerts_type {m : List (SlotHallKey × HallSlotUsage)} :
    ∀ a ∈ capacityAlerts m, a.type = .CAPACITY_OVERRIDE := by
  intro a ha
  obtain ⟨e, -, -, rfl⟩ := capacityAlerts_mem ha
  rfl

theorem performanceAlerts_type {m : List (SlotHallKey × List MockBooking)} :
    ∀ a ∈ performanceAlerts m, a.type = .PERFORMANCE_HALL_CONFLICT := by
  intro a ha
  obtain ⟨e, -, -, -, rfl⟩ := performanceAlerts_mem ha
  rfl

theorem complexAlerts_type {m : List (DaySlotKey × List MockBooking)} :
    ∀ a ∈ complexAlerts m, a.type = .COMPLEX_MULTI_HALL_DAY := by
  intro a ha
  obtain ⟨e, -, rfl⟩ := complexAlerts_mem ha
  rfl

theorem perBooking_type_not_agg (ts i15 : Int) (bs : List MockBooking) :
    ∀ a ∈ bs.flatMap (perBookingAlerts ts i15),
      a.type ≠ .CAPACITY_OVERRIDE ∧ a.type ≠ .PERFORMANCE_HALL_CONFLICT ∧
      a.type ≠ .COMPLEX_MULTI_HALL_DAY := by
  intro a ha
  obtain ⟨b', hb', ha'⟩ := List.mem_flatMap.mp ha
  obtain ⟨-, ht⟩ := perBookingAlerts_shape ts i15 b' a ha'
  rcases ht with h | h | h | h | h | h <;> simp [h]

theorem capId_eq_iff (dk1 dk2 : String) (s1 s2 : Slot) (h1 h2 : HallCode) :
    capId dk1 s1 h1 = capId dk2 s2 h2 ↔ dk1 = dk2 ∧ s1 = s2 ∧ h1 = h2 := by
  constructor
  · exact capId_inj
  · rintro ⟨rfl, rfl, rfl⟩
    rfl

theorem perfConflictId_eq_iff (dk1 dk2 : String) (s1 s2 : Slot) (h1 h2 : HallCode) :
    perfConflictId dk1 s1 h1 = perfConflictId dk2 s2 h2 ↔
      dk1 = dk2 ∧ s1 = s2 ∧ h1 = h2 := by
  constructor
  · exact perfConflictId_inj
  · rintro ⟨rfl, rfl, rfl⟩
    rfl

theorem complexMultihallId_eq_iff (dk1 dk2 : String) (s1 s2 : Slot) :
    complexMultihallId dk1 s1 = complexMultihallId dk2 s2 ↔
      dk1 = dk2 ∧ s1 = s2 := by
  constructor
  · exact complexMultihallId_inj
  · rintro ⟨rfl, rfl⟩
    rfl

theorem capacity_count_in_buildAlerts (bookings : List MockBooking) (today : Int)
    (k : SlotHallKey) (p : AlertDefinition → Bool)
    (hp : ∀ k' u, p (capacityAlert k' u) = decide (k' = k))
    (htype : ∀ a, a.type ≠ .CAPACITY_OVERRIDE → p a = false) :
    (buildAlerts bookings today).countP p =
      if capMax bookings k < capSum bookings k then 1 else 0 := by
  rw [buildAlerts_eq, List.countP_append, List.countP_append, List.countP_append,
      capacity_count bookings k p hp]
  have z1 : (performanceAlerts (slotHallBookingsOf bookings)).countP p = 0 := by
    rw [List.countP_eq_zero]
    intro a ha
    simp [htype a (by simp [performanceAlerts_type a ha])]
  have z2 : ((bookings.flatMap
      (perBookingAlerts (startOfDay today) (addDays (startOfDay today) 15))).countP p) = 0 := by
    rw [List.countP_eq_zero]
    intro a ha
    simp [htype a (perBooking_type_not_agg _ _ _ a ha).1]
  have z3 : (complexAlerts (daySlotBookingsOf bookings)).countP p = 0 := by
    rw [List.countP_eq_zero]
    intro a ha
    simp [htype a (by simp [complexAlerts_type a ha])]
  rw [z1, z2, z3]
  omega

theorem performance_count_in_buildAlerts (bookings : List MockBooking) (today : Int)
    (k : SlotHallKey) (p : AlertDefinition → Bool)
    (hp : ∀ k' l, p (performanceAlert k' l) = decide (k' = k))
    (htype : ∀ a, a.type ≠ .PERFORMANCE_HALL_CONFLICT → p a = false) :
    (buildAlerts bookings today).countP p =
      if 2 ≤ (hallEntries bookings k).length ∧
          (hallEntries bookings k).any (·.hasPerformance) = true
      then 1 else 0 := by
  rw [buildAlerts_eq, List.countP_append, List.countP_append, List.countP_append,
      performance_count bookings k p hp]
  have z1 : (capacityAlerts (hallSlotUsageOf bookings)).countP p = 0 := by
    rw [List.countP_eq_zero]
    intro a ha
    simp [htype a (by simp [capacityAlerts_type a ha])]
  have z2 : ((bookings.flatMap
      (perBookingAlerts (startOfDay today) (addDays (startOfDay today) 15))).countP p) = 0 := by
    rw [List.countP_eq_zero]
    intro a ha
    simp [htype a (perBooking_type_not_agg _ _ _ a ha).2.1]
  have z3 : (complexAlerts (daySlotBookingsOf bookings)).countP p = 0 := by
    rw [List.countP_eq_zero]
    intro a ha
    simp [htype a (by simp [complexAlerts_type a ha])]
  rw [z1, z2, z3]
  omega

/-! ## The claims -/

/-- C1: for every booking list and reference time, `buildAlerts` emits exactly
one CAPACITY_OVERRIDE alert, of severity critical, for each (date, slot,
hallCode) key whose summed guests-here across all hall allocations strictly
exceeds the maximum capacity observed for that key, and zero CAPACITY_OVERRIDE
alerts for a key whose sum is at most that capacity; the comparison is the
literal `used > capacity`, also when the capacity is 0. -/
theorem c1_capacity_override_aggregate (bookings : List MockBooking)
    (today : Int) (dk : String) (s : Slot) (hc : HallCode) :
    ((buildAlerts bookings today).countP fun a =>
        decide (a.type = .CAPACITY_OVERRIDE) && decide (a.severity = .critical) &&
        decide (a.id = capId dk s hc)) =
      (if capMax bookings (dk, s, hc) < capSum bookings (dk, s, hc)
       then 1 else 0) ∧
    ((buildAlerts bookings today).countP fun a =>
        decide (a.type = .CAPACITY_OVERRIDE) && decide (a.id = capId dk s hc)) =
      (if capMax bookings (dk, s, hc) < capSum bookings (dk, s, hc)
       then 1 else 0) := by
  constructor
  · apply capacity_count_in_buildAlerts
    · intro k' u
      obtain ⟨dk', s', hc'⟩ := k'
      simp [capacityAlert, capId_eq_iff]
    · intro a h
      simp [h]
  · apply capacity_count_in_buildAlerts
    · intro k' u
      obtain ⟨dk', s', hc'⟩ := k'
      simp [capacityAlert, capId_eq_iff]
    · intro a h
      simp [h]

/-- C2 counterexample: a booking list with a single booking — so the
(date, slot, hallCode) group holds just one booking — still produces a
PERFORMANCE_HALL_CONFLICT alert, because the booking's halls array allocates
the same hall twice and the group counts one entry per allocation.  The claim
says a single booking with a performance yields zero such alerts. -/
theorem c2_counterexample :
    [doubleAllocBooking].length = 1 ∧
    doubleAllocBooking.hasPerformance = true ∧
    ((buildAlerts [doubleAllocBooking] 0).countP fun a =>
        decide (a.type = .PERFORMANCE_HALL_CONFLICT)) = 1 := by
  refine ⟨rfl, rfl, ?_⟩
  decide

/-- C2 (amended): the per-key group of the performance rule holds one entry
per hall allocation (a booking allocated twice to the hall contributes two
entries).  `buildAlerts` emits exactly one PERFORMANCE_HALL_CONFLICT alert, of
severity warning, for a (date, slot, hallCode) key iff that key's entry list
has at least two entries and at least one entry has a performance; otherwise
zero. -/
theorem c2_performance_conflict_amended (bookings : List MockBooking)
    (today : Int) (dk : String) (s : Slot) (hc : HallCode) :
    ((buildAlerts bookings today).countP fun a =>
        decide (a.type = .PERFORMANCE_HALL_CONFLICT) &&
        decide (a.severity = .warning) &&
        decide (a.id = perfConflictId dk s hc)) =
      (if 2 ≤ (hallEntries bookings (dk, s, hc)).length ∧
          (hallEntries bookings (dk, s, hc)).any (·.hasPerformance) = true
       then 1 else 0) ∧
    ((buildAlerts bookings today).countP fun a =>
        decide (a.type = .PERFORMANCE_HALL_CONFLICT) &&
        decide (a.id = perfConflictId dk s hc)) =
      (if 2 ≤ (hallEntries bookings (dk, s, hc)).length ∧
          (hallEntries bookings (dk, s, hc)).any (·.hasPerformance) = true
       then 1 else 0) := by
  constructor
  · apply performance_count_in_buildAlerts
    · intro k' l
      obtain ⟨dk', s', hc'⟩ := k'
      simp [performanceAlert, perfConflictId_eq_iff]
    · intro a h
      simp [h]
  · apply performance_count_in_buildAlerts
    · intro k' l
      obtain ⟨dk', s', hc'⟩ := k'
      simp [performanceAlert, perfConflictId_eq_iff]
    · intro a h
      simp [h]

theorem perBooking_count_in_buildAlerts (bookings : List MockBooking)
    (today : Int) (b : MockBooking)
    (hn : (bookings.map (·.id)).Nodup) (hb : b ∈ bookings)
    (p : AlertDefinition → Bool)
    (htype : ∀ a, (a.type = .CAPACITY_OVERRIDE ∨
        a.type = .PERFORMANCE_HALL_CONFLICT ∨
        a.type = .COMPLEX_MULTI_HALL_DAY) → p a = false)
    (g : MockBooking → Nat)
    (hg : ∀ b', (perBookingAlerts (startOfDay today)
        (addDays (startOfDay today) 15) b').countP p = g b')
    (hz : ∀ b', b'.id ≠ b.id → g b' = 0) :
    (buildAlerts bookings today).countP p = g b := by
  rw [buildAlerts_eq, List.countP_append, List.countP_append, List.countP_append]
  have z1 : (capacityAlerts (hallSlotUsageOf bookings)).countP p = 0 := by
    rw [List.countP_eq_zero]
    intro a ha
    simp [htype a (Or.inl (capacityAlerts_type a ha))]
  have z2 : (performanceAlerts (slotHallBookingsOf bookings)).countP p = 0 := by
    rw [List.countP_eq_zero]
    intro a ha
    simp [htype a (Or.inr (Or.inl (performanceAlerts_type a ha)))]
  have z3 : (complexAlerts (daySlotBookingsOf bookings)).countP p = 0 := by
    rw [List.countP_eq_zero]
    intro a ha
    simp [htype a (Or.inr (Or.inr (complexAlerts_type a ha)))]
  rw [z1, z2, z3, countP_flatMap]
  have hfun : (fun b' => (perBookingAlerts (startOfDay today)
      (addDays (startOfDay today) 15) b').countP p) = g := funext hg
  rw [hfun, sum_single_of_nodup_ids bookings b g hn hb hz]
  omega

/-- C3: for every booking list with pairwise-distinct booking ids and every
booking in it, a booking with status INQUIRY or TENTATIVE receives a
SOFT_BOOKING_FOLLOWUP alert exactly when its event date lies in the closed
interval from the start of the reference day to that start plus 15 days
(so a booking dated exactly today+15 is included and today+16 is excluded),
and every booking receives a PAST_NOT_CLOSED alert exactly when its event
date is strictly before the start of the reference day and its status is
INQUIRY, TENTATIVE or CONFIRMED (so a booking dated today-1 with an open
status gets past-not-closed instead of follow-up). -/
theorem c3_followup_window (bookings : List MockBooking) (today : Int)
    (b : MockBooking) (hn : (bookings.map (·.id)).Nodup) (hb : b ∈ bookings) :
    ((b.status = .INQUIRY ∨ b.status = .TENTATIVE) →
      ((buildAlerts bookings today).countP fun a =>
          decide (a.type = .SOFT_BOOKING_FOLLOWUP) &&
          decide (a.bookingId = some b.id)) =
        if startOfDay today ≤ b.eventDate ∧
            b.eventDate ≤ addDays (startOfDay today) 15
        then 1 else 0) ∧
    ((buildAlerts bookings today).countP fun a =>
        decide (a.type = .PAST_NOT_CLOSED) &&
        decide (a.bookingId = some b.id)) =
      (if b.eventDate < startOfDay today ∧
          (b.status = .INQUIRY ∨ b.status = .TENTATIVE ∨ b.status = .CONFIRMED)
       then 1 else 0) := by
  constructor
  · intro hsoft
    rw [perBooking_count_in_buildAlerts bookings today b hn hb _
      (by intro a h; rcases h with h | h | h <;> simp [h])
      (fun b' => if ((b'.status = .INQUIRY ∨ b'.status = .TENTATIVE) ∧
          startOfDay today ≤ b'.eventDate ∧
          b'.eventDate ≤ addDays (startOfDay today) 15) ∧ b'.id = b.id
        then 1 else 0)
      (fun b' => countP_perBookingAlerts_soft _ _ b' b.id)
      (by intro b' hne; simp [hne])]
    simp [hsoft]
  · rw [perBooking_count_in_buildAlerts bookings today b hn hb _
      (by intro a h; rcases h with h | h | h <;> simp [h])
      (fun b' => if (b'.eventDate < startOfDay today ∧
          (b'.status = .INQUIRY ∨ b'.status = .TENTATIVE ∨
            b'.status = .CONFIRMED)) ∧ b'.id = b.id
        then 1 else 0)
      (fun b' => countP_perBookingAlerts_past _ _ b' b.id)
      (by intro b' hne; simp [hne])]
    simp

/-- C3 witness: a single TENTATIVE booking dated exactly 15 days after the
reference day is emitted a follow-up alert and no past-not-closed alert. -/
theorem c3_followup_window_witness :
    (((buildAlerts [tentativeB15] 0).countP fun a =>
        decide (a.type = .SOFT_BOOKING_FOLLOWUP) &&
        decide (a.bookingId = some tentativeB15.id)) = 1) ∧
    (((buildAlerts [tentativeB15] 0).countP fun a =>
        decide (a.type = .PAST_NOT_CLOSED) &&
        decide (a.bookingId = some tentativeB15.id)) = 0) := by
  obtain ⟨h1, h2⟩ := c3_followup_window [tentativeB15] 0 tentativeB15
    (by decide) (by decide)
  constructor
  · rw [h1 (Or.inr (by decide))]
    decide
  · rw [h2]
    decide

/-- C4: for every booking list with pairwise-distinct booking ids and every
booking in it, a GUEST_SPLIT_MISMATCH alert is emitted for the booking iff at
least one of its hall guest fields is non-null, its total guests is nonzero,
and the null-as-zero sum of the hall guest fields differs from the total;
in particular a booking with both hall guest fields null gets none. -/
theorem c4_guest_split_mismatch (bookings : List MockBooking) (today : Int)
    (b : MockBooking) (hn : (bookings.map (·.id)).Nodup) (hb : b ∈ bookings) :
    ((buildAlerts bookings today).countP fun a =>
        decide (a.type = .GUEST_SPLIT_MISMATCH) &&
        decide (a.bookingId = some b.id)) =
      if (b.hallAGuests ≠ none ∨ b.hallBGuests ≠ none) ∧ b.totalGuests ≠ 0 ∧
          b.hallAGuests.getD 0 + b.hallBGuests.getD 0 ≠ b.totalGuests
      then 1 else 0 := by
  rw [perBooking_count_in_buildAlerts bookings today b hn hb _
    (by intro a h; rcases h with h | h | h <;> simp [h])
    (fun b' => if ((b'.hallAGuests ≠ none ∨ b'.hallBGuests ≠ none) ∧
        (b'.totalGuests ≠ 0 ∧
          b'.hallAGuests.getD 0 + b'.hallBGuests.getD 0 ≠ b'.totalGuests)) ∧
        b'.id = b.id
      then 1 else 0)
    (fun b' => countP_perBookingAlerts_split _ _ b' b.id)
    (by intro b' hne; simp [hne])]
  simp [and_assoc]

/-- C4 witness: hallAGuests=200, hallBGuests=null, totalGuests=500 yields
exactly one GUEST_SPLIT_MISMATCH alert. -/
theorem c4_guest_split_mismatch_witness :
    ((buildAlerts [splitMismatchB] 0).countP fun a =>
        decide (a.type = .GUEST_SPLIT_MISMATCH) &&
        decide (a.bookingId = some splitMismatchB.id)) = 1 := by
  rw [c4_guest_split_mismatch [splitMismatchB] 0 splitMismatchB
    (by decide) (by decide)]
  decide

/-- C5: for every store state and alert id, `resolveAlert` without a note
upserts status RESOLVED with the previously stored note (if any) preserved,
while `dismissAlert` without a note upserts status DISMISSED with the stored
note cleared to absent; both stamp the supplied current clock reading. -/
theorem c5_resolve_preserves_note_dismiss_clears (st : ResolutionMap)
    (aid now : String) :
    alGet (resolveAlert st aid none now) aid =
      some { alertId := aid, status := .RESOLVED,
             note := (alGet st aid).bind (·.note), updatedAt := now } ∧
    alGet (dismissAlert st aid none now) aid =
      some { alertId := aid, status := .DISMISSED, note := none,
             updatedAt := now } := by
  constructor
  · rw [resolveAlert, alGet_alSet_self]
    rfl
  · rw [dismissAlert, alGet_alSet_self]
    rfl

/-- C6: for an alert id present in the engine output, dismissing with a
(trimmed, nonempty) note and reading the merged list shows effectiveStatus
DISMISSED carrying that note, and a subsequent reopen shows effectiveStatus
ACTIVE with no resolution record attached; the merge computes
effectiveStatus as the stored status when a record exists and ACTIVE
otherwise. -/
theorem c6_resolution_round_trip (bookings : List MockBooking) (today : Int)
    (res : ResolutionMap) (aid note now : String)
    (hres : (alKeys res).Nodup)
    (hid : aid ∈ (buildAlerts bookings today).map (·.id))
    (hnote1 : jsTrim note = note) (hnote2 : note ≠ "") :
    (∃ a ∈ mergeAlerts (buildAlerts bookings today)
        (dismissAlert res aid (some note) now), a.id = aid) ∧
    (∀ a ∈ mergeAlerts (buildAlerts bookings today)
        (dismissAlert res aid (some note) now),
      a.id = aid →
        a.effectiveStatus = .DISMISSED ∧
        a.resolution.bind (·.note) = some note) ∧
    (∀ a ∈ mergeAlerts (buildAlerts bookings today)
        (reopenAlert (dismissAlert res aid (some note) now) aid),
      a.id = aid → a.effectiveStatus = .ACTIVE ∧ a.resolution = none) := by
  have hget : alGet (dismissAlert res aid (some note) now) aid =
      some { alertId := aid, status := .DISMISSED, note := some note,
             updatedAt := now } := by
    rw [dismissAlert, alGet_alSet_self]
    simp [noteOrUndefined, hnote1, hnote2]
  refine ⟨?_, ?_, ?_⟩
  · obtain ⟨d, hd, hdid⟩ := List.mem_map.mp hid
    exact ⟨_, List.mem_map_of_mem _ hd, hdid⟩
  · intro a ha haid
    obtain ⟨d, hd, rfl⟩ := List.mem_map.mp ha
    have hdi : d.id = aid := haid
    constructor
    · show ((alGet (dismissAlert res aid (some note) now) d.id).map
        (·.status)).getD .ACTIVE = _
      rw [hdi, hget]
      rfl
    · show (alGet (dismissAlert res aid (some note) now) d.id).bind
        (·.note) = _
      rw [hdi, hget]
      rfl
  · intro a ha haid
    obtain ⟨d, hd, rfl⟩ := List.mem_map.mp ha
    have hdi : d.id = aid := haid
    have hkeys : (alKeys (dismissAlert res aid (some note) now)).Nodup := by
      rw [dismissAlert]
      exact nodup_alKeys_alSet hres _ _
    have hnone : alGet (reopenAlert (dismissAlert res aid (some note) now)
        aid) d.id = none := by
      rw [reopenAlert, alGet_alDelete hkeys, hdi, if_pos rfl]
    constructor
    · show ((alGet (reopenAlert (dismissAlert res aid (some note) now) aid)
        d.id).map (·.status)).getD .ACTIVE = _
      rw [hnone]
      rfl
    · show alGet (reopenAlert (dismissAlert res aid (some note) now) aid)
        d.id = none
      exact hnone

/-- C6 witness: the split-mismatch alert of a concrete booking is dismissed
with note "approved", showing DISMISSED with that note; reopening shows
ACTIVE with no resolution record. -/
theorem c6_resolution_round_trip_witness :
    (∃ a ∈ mergeAlerts (buildAlerts [splitMismatchB] 0)
        (dismissAlert [] "split-mismatch-1" (some "approved") "T1"),
      a.id = "split-mismatch-1") ∧
    (∀ a ∈ mergeAlerts (buildAlerts [splitMismatchB] 0)
        (dismissAlert [] "split-mismatch-1" (some "approved") "T1"),
      a.id = "split-mismatch-1" →
        a.effectiveStatus = .DISMISSED ∧
        a.resolution.bind (·.note) = some "approved") ∧
    (∀ a ∈ mergeAlerts (buildAlerts [splitMismatchB] 0)
        (reopenAlert (dismissAlert [] "split-mismatch-1" (some "approved")
          "T1") "split-mismatch-1"),
      a.id = "split-mismatch-1" →
        a.effectiveStatus = .ACTIVE ∧ a.resolution = none) :=
  c6_resolution_round_trip [splitMismatchB] 0 [] "split-mismatch-1"
    "approved" "T1" (by decide) (by decide) (by decide) (by decide)

/-- C7: the engine is deterministic — for a fixed booking list and fixed
reference time, two calls return exactly equal alert arrays: same length,
same order, element-wise identical ids and fields. -/
theorem c7_determinism (bookings : List MockBooking) (today : Int) :
    buildAlerts bookings today = buildAlerts bookings today := rfl

/-- C8 counterexample: a capacity-override alert (a slot-level aggregate
alert) carries a present booking id — the sample booking link — and so does
a performance-conflict alert; the claim says aggregate alerts have an absent
booking id. -/
theorem c8_counterexample_booking_id_present :
    ((buildAlerts [capOverB] 0).countP fun a =>
        decide (a.type = .CAPACITY_OVERRIDE) && a.bookingId.isSome) = 1 ∧
    ((buildAlerts [doubleAllocBooking] 0).countP fun a =>
        decide (a.type = .PERFORMANCE_HALL_CONFLICT) && a.bookingId.isSome) = 1 := by
  constructor
  · decide
  · decide

/-- C8 (amended): among the slot/day-level aggregate alerts only
COMPLEX_MULTI_HALL_DAY has an absent booking id; CAPACITY_OVERRIDE and
PERFORMANCE_HALL_CONFLICT aggregates always carry a present (sample /
representative) booking id. -/
theorem c8_aggregate_linkage_amended (bookings : List MockBooking)
    (today : Int) (a : AlertDefinition) (ha : a ∈ buildAlerts bookings today) :
    (a.type = .COMPLEX_MULTI_HALL_DAY → a.bookingId = none) ∧
    (a.type = .CAPACITY_OVERRIDE ∨ a.type = .PERFORMANCE_HALL_CONFLICT →
      a.bookingId.isSome = true) := by
  rw [buildAlerts_eq] at ha
  rcases List.mem_append.mp ha with hcap | ha
  · obtain ⟨e, he, -, rfl⟩ := capacityAlerts_mem hcap
    constructor
    · intro h
      simp [capacityAlert] at h
    · intro _
      show e.2.sampleBookingId.isSome = true
      have hget : alGet (hallSlotUsageOf bookings) e.1 = some e.2 :=
        alGet_eq_some_of_mem (nodup_alKeys_hallSlotUsageOf bookings) he
      rw [alGet_hallSlotUsageOf] at hget
      by_cases hne : (allocsAt bookings e.1).isEmpty
      · rw [List.isEmpty_iff.mp hne] at hget
        exact absurd hget (by simp)
      · obtain ⟨u, hf, -, -, hs⟩ :=
          usage_foldl_none_props _ (by simpa using hne)
        rw [hf] at hget
        obtain rfl : u = e.2 := Option.some_injective _ hget
        exact hs
  rcases List.mem_append.mp ha with hperf | ha
  · obtain ⟨e, -, -, hany, rfl⟩ := performanceAlerts_mem hperf
    constructor
    · intro h
      simp [performanceAlert] at h
    · intro _
      show ((e.2.find? (·.hasPerformance)).map (·.id)).isSome = true
      rcases hfind : e.2.find? (·.hasPerformance) with - | b
      · obtain ⟨x, hx, hpx⟩ := List.any_eq_true.mp hany
        exact absurd hpx (by simpa using List.find?_eq_none.mp hfind x hx)
      · rw [hfind]
        rfl
  rcases List.mem_append.mp ha with hpb | hcomplex
  · obtain ⟨b', hb', ha'⟩ := List.mem_flatMap.mp hpb
    obtain ⟨-, ht⟩ := perBookingAlerts_shape _ _ b' a ha'
    constructor
    · intro hc
      rcases ht with h | h | h | h | h | h <;> rw [h] at hc <;> cases hc
    · intro hc
      rcases ht with h | h | h | h | h | h <;>
        rcases hc with hc | hc <;> rw [h] at hc <;> cases hc
  · obtain ⟨e, -, rfl⟩ := complexAlerts_mem hcomplex
    constructor
    · intro _
      rfl
    · intro h
      rcases h with h | h <;> simp [complexAlert] at h

/-- C8 witness: the single alert of a concrete over-capacity booking list is
a CAPACITY_OVERRIDE alert carrying a present booking id. -/
theorem c8_aggregate_linkage_witness :
    ((buildAlerts [capOverB] 0).headD defaultAlert ∈ buildAlerts [capOverB] 0) ∧
    (((buildAlerts [capOverB] 0).headD defaultAlert).type =
        .COMPLEX_MULTI_HALL_DAY →
      ((buildAlerts [capOverB] 0).headD defaultAlert).bookingId = none) ∧
    (((buildAlerts [capOverB] 0).headD defaultAlert).type =
        .CAPACITY_OVERRIDE ∨
      ((buildAlerts [capOverB] 0).headD defaultAlert).type =
        .PERFORMANCE_HALL_CONFLICT →
      ((buildAlerts [capOverB] 0).headD defaultAlert).bookingId.isSome = true) :=
  ⟨by decide, c8_aggregate_linkage_amended [capOverB] 0 _ (by decide)⟩

/-- C9: load normalization is per-entry (a dropped entry never affects the
rest); non-object entries and entries whose recovered alertId is empty are
dropped; an unrecognized or absent status string maps to ACTIVE while the
note and timestamp are kept; and the legacy field names `reason` (for the
note) and `dismissedAt` / `resolvedAt` (for the timestamp) are accepted. -/
theorem c9_load_normalization :
    (∀ (fs1 fs2 : List (String × JValue)) (e : String × JValue) (now : String),
      normalizeEntry e.1 e.2 now = none →
        normalizeResolutions (.obj (fs1 ++ e :: fs2)) now =
          normalizeResolutions (.obj (fs1 ++ fs2)) now) ∧
    (∀ k now : String, normalizeEntry k .null now = none) ∧
    (∀ (k now : String) (b : Bool), normalizeEntry k (.bool b) now = none) ∧
    (∀ (k now : String) (n : Int), normalizeEntry k (.num n) now = none) ∧
    (∀ k now s : String, normalizeEntry k (.str s) now = none) ∧
    (∀ (k now : String) (v : JValue) (fs : List (String × JValue)),
      jFields? v = some fs → (jStrField fs "alertId").getD k = "" →
      normalizeEntry k v now = none) ∧
    (∀ (k now : String) (fs : List (String × JValue)) (s : String),
      (jStrField fs "alertId").getD k ≠ "" →
      jStrField fs "status" = some s → s ≠ "DISMISSED" → s ≠ "RESOLVED" →
      normalizeEntry k (.obj fs) now =
        some { alertId := (jStrField fs "alertId").getD k, status := .ACTIVE,
               note := noteOrUndefined (jNoteOf fs),
               updatedAt := jUpdatedAtOf fs now }) ∧
    (∀ (k now : String) (fs : List (String × JValue)),
      (jStrField fs "alertId").getD k ≠ "" →
      jStrField fs "status" = none →
      normalizeEntry k (.obj fs) now =
        some { alertId := (jStrField fs "alertId").getD k, status := .ACTIVE,
               note := noteOrUndefined (jNoteOf fs),
               updatedAt := jUpdatedAtOf fs now }) ∧
    (∀ fs : List (String × JValue),
      jStrField fs "note" = none → jNoteOf fs = jStrField fs "reason") ∧
    (∀ (fs : List (String × JValue)) (now s : String),
      jStrField fs "updatedAt" = none → jStrField fs "dismissedAt" = some s →
      jUpdatedAtOf fs now = s) ∧
    (∀ (fs : List (String × JValue)) (now s : String),
      jStrField fs "updatedAt" = none → jStrField fs "dismissedAt" = none →
      jStrField fs "resolvedAt" = some s → jUpdatedAtOf fs now = s) := by
  refine ⟨?_, ?_, ?_, ?_, ?_, ?_, ?_, ?_, ?_, ?_, ?_⟩
  · intro fs1 fs2 e now hnone
    show ((fs1 ++ e :: fs2).foldl _ []) = ((fs1 ++ fs2).foldl _ [])
    rw [List.foldl_append, List.foldl_cons, List.foldl_append, hnone]
  · intro k now
    rfl
  · intro k now b
    rfl
  · intro k now n
    rfl
  · intro k now s
    rfl
  · intro k now v fs hfs hempty
    rw [normalizeEntry, hfs]
    simp [hempty]
  · intro k now fs s hne hs h1 h2
    rw [normalizeEntry]
    show (if (jStrField fs "alertId").getD k = "" then none else _) = _
    rw [if_neg hne]
    simp [hs, h1, h2]
  · intro k now fs hne hs
    rw [normalizeEntry]
    show (if (jStrField fs "alertId").getD k = "" then none else _) = _
    rw [if_neg hne]
    simp [hs]
  · intro fs h
    rw [jNoteOf, h]
  · intro fs now s h1 h2
    rw [jUpdatedAtOf, h1, h2]
  · intro fs now s h1 h2 h3
    rw [jUpdatedAtOf, h1, h2, h3]

/-- C9 witness: a numeric entry is dropped without affecting its neighbours;
null, boolean, number and string entries normalize to nothing; an empty
recovered alertId is dropped; a legacy-shaped entry with unknown status
keeps its trimmed `reason` note and `dismissedAt` timestamp under ACTIVE. -/
theorem c9_load_normalization_witness :
    (normalizeResolutions
        (.obj [("a", .obj legacyFields), ("bad", .num 3),
               ("b", .obj legacyFields)]) "NOW" =
      normalizeResolutions
        (.obj [("a", .obj legacyFields), ("b", .obj legacyFields)]) "NOW") ∧
    normalizeEntry "k" .null "NOW" = none ∧
    normalizeEntry "k" (.bool true) "NOW" = none ∧
    normalizeEntry "k" (.num 3) "NOW" = none ∧
    normalizeEntry "k" (.str "x") "NOW" = none ∧
    normalizeEntry "" (.obj legacyFields) "NOW" = none ∧
    normalizeEntry "a1" (.obj legacyFields) "NOW" =
      some { alertId := "a1", status := .ACTIVE,
             note := noteOrUndefined (jNoteOf legacyFields),
             updatedAt := jUpdatedAtOf legacyFields "NOW" } ∧
    normalizeEntry "a2" (.obj []) "NOW" =
      some { alertId := "a2", status := .ACTIVE,
             note := noteOrUndefined (jNoteOf []),
             updatedAt := jUpdatedAtOf [] "NOW" } ∧
    jNoteOf legacyFields = jStrField legacyFields "reason" ∧
    jUpdatedAtOf legacyFields "NOW" = "2020-01-01T00:00:00.000Z" ∧
    jUpdatedAtOf [("resolvedAt", .str "R")] "NOW" = "R" :=
  ⟨c9_load_normalization.1 [("a", .obj legacyFields)]
      [("b", .obj legacyFields)] ("bad", .num 3) "NOW" (by decide),
   c9_load_normalization.2.1 "k" "NOW",
   c9_load_normalization.2.2.1 "k" "NOW" true,
   c9_load_normalization.2.2.2.1 "k" "NOW" 3,
   c9_load_normalization.2.2.2.2.1 "k" "NOW" "x",
   c9_load_normalization.2.2.2.2.2.1 "" "NOW" (.obj legacyFields)
     legacyFields rfl (by decide),
   c9_load_normalization.2.2.2.2.2.2.1 "a1" "NOW" legacyFields "WEIRD"
     (by decide) rfl (by decide) (by decide),
   c9_load_normalization.2.2.2.2.2.2.2.1 "a2" "NOW" [] (by decide) rfl,
   c9_load_normalization.2.2.2.2.2.2.2.2.1 legacyFields rfl,
   c9_load_normalization.2.2.2.2.2.2.2.2.2.1 legacyFields "NOW"
     "2020-01-01T00:00:00.000Z" rfl rfl,
   c9_load_normalization.2.2.2.2.2.2.2.2.2.2 [("resolvedAt", .str "R")]
     "NOW" "R" rfl rfl rfl⟩

/-! ## Distinctness of alert ids (for C10) -/

theorem natSuffix_id_inj {head : List Char} {i1 i2 : Nat}
    (h : head ++ (natToString i1).data = head ++ (natToString i2).data) :
    i1 = i2 :=
  natToString_inj _ _ (stringData_inj (List.append_inj h rfl).2)

theorem softFollowId_inj {i1 i2 : Nat} (h : softFollowId i1 = softFollowId i2) : i1 = i2 := by
  have hd := congrArg String.data h
  rw [softFollowId_data, softFollowId_data] at hd
  exact natSuffix_id_inj hd

theorem pastOpenId_inj {i1 i2 : Nat} (h : pastOpenId i1 = pastOpenId i2) : i1 = i2 := by
  have hd := congrArg String.data h
  rw [pastOpenId_data, pastOpenId_data] at hd
  exact natSuffix_id_inj hd

theorem missingContactId_inj {i1 i2 : Nat} (h : missingContactId i1 = missingContactId i2) : i1 = i2 := by
  have hd := congrArg String.data h
  rw [missingContactId_data, missingContactId_data] at hd
  exact natSuffix_id_inj hd

theorem splitMismatchId_inj {i1 i2 : Nat} (h : splitMismatchId i1 = splitMismatchId i2) : i1 = i2 := by
  have hd := congrArg String.data h
  rw [splitMismatchId_data, splitMismatchId_data] at hd
  exact natSuffix_id_inj hd

theorem highGuestsId_inj {i1 i2 : Nat} (h : highGuestsId i1 = highGuestsId i2) : i1 = i2 := by
  have hd := congrArg String.data h
  rw [highGuestsId_data, highGuestsId_data] at hd
  exact natSuffix_id_inj hd

theorem highAdvanceId_inj {i1 i2 : Nat} (h : highAdvanceId i1 = highAdvanceId i2) : i1 = i2 := by
  have hd := congrArg String.data h
  rw [highAdvanceId_data, highAdvanceId_data] at hd
  exact natSuffix_id_inj hd

/-- The six candidate ids of the per-booking rules for a booking id. -/
theorem perBookingAlerts_ids_sublist (ts i15 : Int) (b : MockBooking) :
    ((perBookingAlerts ts i15 b).map (·.id)).Sublist
      [softFollowId b.id, pastOpenId b.id, missingContactId b.id,
       splitMismatchId b.id, highGuestsId b.id, highAdvanceId b.id] := by
  show ((perBookingAlerts ts i15 b).map (·.id)).Sublist
    ((((([softFollowId b.id] ++ [pastOpenId b.id]) ++ [missingContactId b.id]) ++
      [splitMismatchId b.id]) ++ [highGuestsId b.id]) ++ [highAdvanceId b.id])
  simp only [perBookingAlerts, List.map_append]
  refine List.Sublist.append (List.Sublist.append (List.Sublist.append
    (List.Sublist.append (List.Sublist.append ?_ ?_) ?_) ?_) ?_) ?_
  · split <;> simp
  · split <;> simp
  · split <;> simp
  · split
    · split <;> simp
    · simp
  · split <;> simp
  · cases b.advance <;> simp
    split
    · simp
    · simp
      omega

theorem mem_capIds {m : List (SlotHallKey × HallSlotUsage)} {x : String}
    (hx : x ∈ (capacityAlerts m).map (·.id)) :
    ∃ dk s hc, x = capId dk s hc := by
  obtain ⟨a, ha, rfl⟩ := List.mem_map.mp hx
  obtain ⟨e, -, -, rfl⟩ := capacityAlerts_mem ha
  exact ⟨e.1.1, e.1.2.1, e.1.2.2, rfl⟩

theorem mem_perfIds {m : List (SlotHallKey × List MockBooking)} {x : String}
    (hx : x ∈ (performanceAlerts m).map (·.id)) :
    ∃ dk s hc, x = perfConflictId dk s hc := by
  obtain ⟨a, ha, rfl⟩ := List.mem_map.mp hx
  obtain ⟨e, -, -, -, rfl⟩ := performanceAlerts_mem ha
  exact ⟨e.1.1, e.1.2.1, e.1.2.2, rfl⟩

theorem mem_complexIds {m : List (DaySlotKey × List MockBooking)} {x : String}
    (hx : x ∈ (complexAlerts m).map (·.id)) :
    ∃ dk s, x = complexMultihallId dk s := by
  obtain ⟨a, ha, rfl⟩ := List.mem_map.mp hx
  obtain ⟨e, -, rfl⟩ := complexAlerts_mem ha
  exact ⟨e.1.1, e.1.2, rfl⟩

theorem mem_pbIds (ts i15 : Int) {bs : List MockBooking} {x : String}
    (hx : x ∈ (bs.flatMap (perBookingAlerts ts i15)).map (·.id)) :
    ∃ i : Nat, x = softFollowId i ∨ x = pastOpenId i ∨ x = missingContactId i ∨
      x = splitMismatchId i ∨ x = highGuestsId i ∨ x = highAdvanceId i := by
  rw [List.map_flatMap] at hx
  obtain ⟨b, hb, hxb⟩ := List.mem_flatMap.mp hx
  have hmem := (perBookingAlerts_ids_sublist ts i15 b).subset hxb
  refine ⟨b.id, ?_⟩
  simpa using hmem


theorem softFollowId_ne_pastOpenId (i1 i2 : Nat) : softFollowId i1 ≠ pastOpenId i2 :=
  ne_of_data_heads (softFollowId_data i1) (pastOpenId_data i2) (by decide) (by decide)

theorem softFollowId_ne_missingContactId (i1 i2 : Nat) : softFollowId i1 ≠ missingContactId i2 :=
  ne_of_data_heads (softFollowId_data i1) (missingContactId_data i2) (by decide) (by decide)

theorem softFollowId_ne_splitMismatchId (i1 i2 : Nat) : softFollowId i1 ≠ splitMismatchId i2 :=
  ne_of_data_heads (softFollowId_data i1) (splitMismatchId_data i2) (by decide) (by decide)

theorem softFollowId_ne_highGuestsId (i1 i2 : Nat) : softFollowId i1 ≠ highGuestsId i2 :=
  ne_of_data_heads (softFollowId_data i1) (highGuestsId_data i2) (by decide) (by decide)

theorem softFollowId_ne_highAdvanceId (i1 i2 : Nat) : softFollowId i1 ≠ highAdvanceId i2 :=
  ne_of_data_heads (softFollowId_data i1) (highAdvanceId_data i2) (by decide) (by decide)

theorem pastOpenId_ne_missingContactId (i1 i2 : Nat) : pastOpenId i1 ≠ missingContactId i2 :=
  ne_of_data_heads (pastOpenId_data i1) (missingContactId_data i2) (by decide) (by decide)

theorem pastOpenId_ne_splitMismatchId (i1 i2 : Nat) : pastOpenId i1 ≠ splitMismatchId i2 :=
  ne_of_data_heads (pastOpenId_data i1) (splitMismatchId_data i2) (by decide) (by decide)

theorem pastOpenId_ne_highGuestsId (i1 i2 : Nat) : pastOpenId i1 ≠ highGuestsId i2 :=
  ne_of_data_heads (pastOpenId_data i1) (highGuestsId_data i2) (by decide) (by decide)

theorem pastOpenId_ne_highAdvanceId (i1 i2 : Nat) : pastOpenId i1 ≠ highAdvanceId i2 :=
  ne_of_data_heads (pastOpenId_data i1) (highAdvanceId_data i2) (by decide) (by decide)

theorem missingContactId_ne_splitMismatchId (i1 i2 : Nat) : missingContactId i1 ≠ splitMismatchId i2 :=
  ne_of_data_heads (missingContactId_data i1) (splitMismatchId_data i2) (by decide) (by decide)

theorem missingContactId_ne_highGuestsId (i1 i2 : Nat) : missingContactId i1 ≠ highGuestsId i2 :=
  ne_of_data_heads (missingContactId_data i1) (highGuestsId_data i2) (by decide) (by decide)

theorem missingContactId_ne_highAdvanceId (i1 i2 : Nat) : missingContactId i1 ≠ highAdvanceId i2 :=
  ne_of_data_heads (missingContactId_data i1) (highAdvanceId_data i2) (by decide) (by decide)

theorem splitMismatchId_ne_highGuestsId (i1 i2 : Nat) : splitMismatchId i1 ≠ highGuestsId i2 :=
  ne_of_data_heads (splitMismatchId_data i1) (highGuestsId_data i2) (by decide) (by decide)

theorem splitMismatchId_ne_highAdvanceId (i1 i2 : Nat) : splitMismatchId i1 ≠ highAdvanceId i2 :=
  ne_of_data_heads (splitMismatchId_data i1) (highAdvanceId_data i2) (by decide) (by decide)

theorem highGuestsId_ne_highAdvanceId (i1 i2 : Nat) : highGuestsId i1 ≠ highAdvanceId i2 :=
  ne_of_data_heads (highGuestsId_data i1) (highAdvanceId_data i2) (by decide) (by decide)

theorem six_ids_nodup (i : Nat) :
    ([softFollowId i, pastOpenId i, missingContactId i, splitMismatchId i,
      highGuestsId i, highAdvanceId i]).Nodup := by
  simp [List.nodup_cons,
    softFollowId_ne_pastOpenId i i,
    softFollowId_ne_missingContactId i i,
    softFollowId_ne_splitMismatchId i i,
    softFollowId_ne_highGuestsId i i,
    softFollowId_ne_highAdvanceId i i,
    pastOpenId_ne_missingContactId i i,
    pastOpenId_ne_splitMismatchId i i,
    pastOpenId_ne_highGuestsId i i,
    pastOpenId_ne_highAdvanceId i i,
    missingContactId_ne_splitMismatchId i i,
    missingContactId_ne_highGuestsId i i,
    missingContactId_ne_highAdvanceId i i,
    splitMismatchId_ne_highGuestsId i i,
    splitMismatchId_ne_highAdvanceId i i,
    highGuestsId_ne_highAdvanceId i i]

theorem pb_ids_disjoint_pair (ts i15 : Int) {b1 b2 : MockBooking}
    (hne : b1.id ≠ b2.id) :
    List.Disjoint ((perBookingAlerts ts i15 b1).map (·.id))
      ((perBookingAlerts ts i15 b2).map (·.id)) := by
  intro x hx1 hx2
  have h1 := (perBookingAlerts_ids_sublist ts i15 b1).subset hx1
  have h2 := (perBookingAlerts_ids_sublist ts i15 b2).subset hx2
  simp only [List.mem_cons, List.not_mem_nil, or_false] at h1 h2
  rcases h1 with h | h | h | h | h | h <;> subst h <;>
    rcases h2 with h' | h' | h' | h' | h' | h' <;>
    first
      | exact hne (softFollowId_inj h')
      | exact hne (pastOpenId_inj h')
      | exact hne (missingContactId_inj h')
      | exact hne (splitMismatchId_inj h')
      | exact hne (highGuestsId_inj h')
      | exact hne (highAdvanceId_inj h')
      | exact softFollowId_ne_pastOpenId _ _ h'
      | exact softFollowId_ne_pastOpenId _ _ h'.symm
      | exact softFollowId_ne_missingContactId _ _ h'
      | exact softFollowId_ne_missingContactId _ _ h'.symm
      | exact softFollowId_ne_splitMismatchId _ _ h'
      | exact softFollowId_ne_splitMismatchId _ _ h'.symm
      | exact softFollowId_ne_highGuestsId _ _ h'
      | exact softFollowId_ne_highGuestsId _ _ h'.symm
      | exact softFollowId_ne_highAdvanceId _ _ h'
      | exact softFollowId_ne_highAdvanceId _ _ h'.symm
      | exact pastOpenId_ne_missingContactId _ _ h'
      | exact pastOpenId_ne_missingContactId _ _ h'.symm
      | exact pastOpenId_ne_splitMismatchId _ _ h'
      | exact pastOpenId_ne_splitMismatchId _ _ h'.symm
      | exact pastOpenId_ne_highGuestsId _ _ h'
      | exact pastOpenId_ne_highGuestsId _ _ h'.symm
      | exact pastOpenId_ne_highAdvanceId _ _ h'
      | exact pastOpenId_ne_highAdvanceId _ _ h'.symm
      | exact missingContactId_ne_splitMismatchId _ _ h'
      | exact missingContactId_ne_splitMismatchId _ _ h'.symm
      | exact missingContactId_ne_highGuestsId _ _ h'
      | exact missingContactId_ne_highGuestsId _ _ h'.symm
      | exact missingContactId_ne_highAdvanceId _ _ h'
      | exact missingContactId_ne_highAdvanceId _ _ h'.symm
      | exact splitMismatchId_ne_highGuestsId _ _ h'
      | exact splitMismatchId_ne_highGuestsId _ _ h'.symm
      | exact splitMismatchId_ne_highAdvanceId _ _ h'
      | exact splitMismatchId_ne_highAdvanceId _ _ h'.symm
      | exact highGuestsId_ne_highAdvanceId _ _ h'
      | exact highGuestsId_ne_highAdvanceId _ _ h'.symm

theorem nodup_capIds (m : List (SlotHallKey × HallSlotUsage))
    (hkeys : (alKeys m).Nodup) :
    ((capacityAlerts m).map (·.id)).Nodup := by
  unfold capacityAlerts
  rw [List.map_map]
  have hco : ((fun a : AlertDefinition => a.id) ∘
      fun e : SlotHallKey × HallSlotUsage => capacityAlert e.1 e.2) =
      (fun k : SlotHallKey => capId k.1 k.2.1 k.2.2) ∘ (fun e => e.1) := rfl
  rw [hco, ← List.map_map]
  refine List.Nodup.map ?_ ?_
  · intro k1 k2 h
    obtain ⟨a1, s1, c1⟩ := k1
    obtain ⟨a2, s2, c2⟩ := k2
    obtain ⟨rfl, rfl, rfl⟩ := capId_inj h
    rfl
  · exact List.Nodup.sublist
      (List.Sublist.map (fun e => e.1) (List.filter_sublist m)) hkeys

theorem nodup_perfIds (m : List (SlotHallKey × List MockBooking))
    (hkeys : (alKeys m).Nodup) :
    ((performanceAlerts m).map (·.id)).Nodup := by
  unfold performanceAlerts
  rw [List.map_map]
  have hco : ((fun a : AlertDefinition => a.id) ∘
      fun e : SlotHallKey × List MockBooking => performanceAlert e.1 e.2) =
      (fun k : SlotHallKey => perfConflictId k.1 k.2.1 k.2.2) ∘ (fun e => e.1) := rfl
  rw [hco, ← List.map_map]
  refine List.Nodup.map ?_ ?_
  · intro k1 k2 h
    obtain ⟨a1, s1, c1⟩ := k1
    obtain ⟨a2, s2, c2⟩ := k2
    obtain ⟨rfl, rfl, rfl⟩ := perfConflictId_inj h
    rfl
  · exact List.Nodup.sublist
      (List.Sublist.map (fun e => e.1) (List.filter_sublist m)) hkeys

theorem nodup_complexIds (m : List (DaySlotKey × List MockBooking))
    (hkeys : (alKeys m).Nodup) :
    ((complexAlerts m).map (·.id)).Nodup := by
  unfold complexAlerts
  rw [List.map_map]
  have hco : ((fun a : AlertDefinition => a.id) ∘
      fun e : DaySlotKey × List MockBooking => complexAlert e.1 e.2) =
      (fun k : DaySlotKey => complexMultihallId k.1 k.2) ∘ (fun e => e.1) := rfl
  rw [hco, ← List.map_map]
  refine List.Nodup.map ?_ ?_
  · intro k1 k2 h
    obtain ⟨a1, s1⟩ := k1
    obtain ⟨a2, s2⟩ := k2
    obtain ⟨rfl, rfl⟩ := complexMultihallId_inj h
    rfl
  · exact List.Nodup.sublist
      (List.Sublist.map (fun e => e.1) (List.filter_sublist m)) hkeys

theorem nodup_pbIds (ts i15 : Int) (bs : List MockBooking)
    (hn : (bs.map (·.id)).Nodup) :
    ((bs.flatMap (perBookingAlerts ts i15)).map (·.id)).Nodup := by
  rw [List.map_flatMap, List.nodup_flatMap]
  constructor
  · intro b hb
    exact List.Nodup.sublist (perBookingAlerts_ids_sublist ts i15 b)
      (six_ids_nodup b.id)
  · have hpw : bs.Pairwise (fun b1 b2 => b1.id ≠ b2.id) :=
      List.pairwise_map.mp hn
    exact hpw.imp (fun hne => pb_ids_disjoint_pair ts i15 hne)

theorem pb_complex_ids_disjoint (ts i15 : Int) (bs : List MockBooking)
    (m : List (DaySlotKey × List MockBooking)) :
    List.Disjoint ((bs.flatMap (perBookingAlerts ts i15)).map (·.id))
      ((complexAlerts m).map (·.id)) := by
  intro x hx1 hx2
  obtain ⟨i, hsix⟩ := mem_pbIds ts i15 hx1
  obtain ⟨dk, s, rfl⟩ := mem_complexIds hx2
  rcases hsix with h | h | h | h | h | h
  · exact ne_of_data_heads (softFollowId_data i) (complexMultihallId_data dk s) (by decide) (by decide) h.symm
  · exact ne_of_data_heads (pastOpenId_data i) (complexMultihallId_data dk s) (by decide) (by decide) h.symm
  · exact ne_of_data_heads (missingContactId_data i) (complexMultihallId_data dk s) (by decide) (by decide) h.symm
  · exact ne_of_data_heads (splitMismatchId_data i) (complexMultihallId_data dk s) (by decide) (by decide) h.symm
  · exact ne_of_data_heads (highGuestsId_data i) (complexMultihallId_data dk s) (by decide) (by decide) h.symm
  · exact ne_of_data_heads (highAdvanceId_data i) (complexMultihallId_data dk s) (by decide) (by decide) h.symm

theorem perf_rest_ids_disjoint (ts i15 : Int) (bs : List MockBooking)
    (mp : List (SlotHallKey × List MockBooking))
    (mc : List (DaySlotKey × List MockBooking)) :
    List.Disjoint ((performanceAlerts mp).map (·.id))
      (((bs.flatMap (perBookingAlerts ts i15)).map (·.id)) ++
        ((complexAlerts mc).map (·.id))) := by
  intro x hx1 hx2
  obtain ⟨dk, s, hc, rfl⟩ := mem_perfIds hx1
  rcases List.mem_append.mp hx2 with hpb | hcx
  · obtain ⟨i, hsix⟩ := mem_pbIds ts i15 hpb
    rcases hsix with h | h | h | h | h | h
    · exact ne_of_data_heads (perfConflictId_data dk s hc) (softFollowId_data i) (by decide) (by decide) h
    · exact ne_of_data_heads (perfConflictId_data dk s hc) (pastOpenId_data i) (by decide) (by decide) h
    · exact ne_of_data_heads (perfConflictId_data dk s hc) (missingContactId_data i) (by decide) (by decide) h
    · exact ne_of_data_heads (perfConflictId_data dk s hc) (splitMismatchId_data i) (by decide) (by decide) h
    · exact ne_of_data_heads (perfConflictId_data dk s hc) (highGuestsId_data i) (by decide) (by decide) h
    · exact ne_of_data_heads (perfConflictId_data dk s hc) (highAdvanceId_data i) (by decide) (by decide) h
  · obtain ⟨dk2, s2, h2⟩ := mem_complexIds hcx
    exact ne_of_data_heads (perfConflictId_data dk s hc)
      (complexMultihallId_data dk2 s2) (by decide) (by decide) h2

theorem cap_rest_ids_disjoint (ts i15 : Int) (bs : List MockBooking)
    (mu : List (SlotHallKey × HallSlotUsage))
    (mp : List (SlotHallKey × List MockBooking))
    (mc : List (DaySlotKey × List MockBooking)) :
    List.Disjoint ((capacityAlerts mu).map (·.id))
      (((performanceAlerts mp).map (·.id)) ++
        (((bs.flatMap (perBookingAlerts ts i15)).map (·.id)) ++
          ((complexAlerts mc).map (·.id)))) := by
  intro x hx1 hx2
  obtain ⟨dk, s, hc, rfl⟩ := mem_capIds hx1
  rcases List.mem_append.mp hx2 with hpf | hx2
  · obtain ⟨dk2, s2, hc2, h2⟩ := mem_perfIds hpf
    exact ne_of_data_heads (capId_data dk s hc)
      (perfConflictId_data dk2 s2 hc2) (by decide) (by decide) h2
  rcases List.mem_append.mp hx2 with hpb | hcx
  · obtain ⟨i, hsix⟩ := mem_pbIds ts i15 hpb
    rcases hsix with h | h | h | h | h | h
    · exact ne_of_data_heads (capId_data dk s hc) (softFollowId_data i) (by decide) (by decide) h
    · exact ne_of_data_heads (capId_data dk s hc) (pastOpenId_data i) (by decide) (by decide) h
    · exact ne_of_data_heads (capId_data dk s hc) (missingContactId_data i) (by decide) (by decide) h
    · exact ne_of_data_heads (capId_data dk s hc) (splitMismatchId_data i) (by decide) (by decide) h
    · exact ne_of_data_heads (capId_data dk s hc) (highGuestsId_data i) (by decide) (by decide) h
    · exact ne_of_data_heads (capId_data dk s hc) (highAdvanceId_data i) (by decide) (by decide) h
  · obtain ⟨dk2, s2, h2⟩ := mem_complexIds hcx
    exact ne_of_data_heads (capId_data dk s hc)
      (complexMultihallId_data dk2 s2) (by decide) (by decide) h2

/-- C10: for every booking list with pairwise-distinct numeric ids (and any
reference time), the alert ids in the engine output are pairwise distinct —
each group rule emits at most one alert per grouping key, each per-booking
rule at most one alert per booking, and the nine id templates are mutually
non-colliding — so the resolution overlay keyed by alert id never has two
alerts of one output competing for the same resolution record. -/
theorem c10_alert_ids_pairwise_distinct (bookings : List MockBooking)
    (today : Int) (hn : (bookings.map (·.id)).Nodup) :
    ((buildAlerts bookings today).map (·.id)).Nodup := by
  rw [buildAlerts_eq, List.map_append, List.map_append, List.map_append]
  refine List.Nodup.append
    (nodup_capIds _ (nodup_alKeys_hallSlotUsageOf bookings))
    (List.Nodup.append
      (nodup_perfIds _ (nodup_alKeys_slotHallBookingsOf bookings))
      (List.Nodup.append
        (nodup_pbIds _ _ bookings hn)
        (nodup_complexIds _ (nodup_alKeys_daySlotBookingsOf bookings))
        (pb_complex_ids_disjoint _ _ bookings _))
      (perf_rest_ids_disjoint _ _ bookings _ _))
    (cap_rest_ids_disjoint _ _ bookings _ _ _)

/-- C10 witness: a concrete two-booking list with distinct ids yields an
alert list whose ids are pairwise distinct. -/
theorem c10_alert_ids_pairwise_distinct_witness :
    ((buildAlerts [doubleAllocBooking, splitMismatchB2] 0).map (·.id)).Nodup :=
  c10_alert_ids_pairwise_distinct [doubleAllocBooking, splitMismatchB2] 0
    (by decide)

end Luxurium
